import Mathlib

set_option maxHeartbeats 1600000
set_option maxRecDepth 4000

/-!
Verification of the CampaignCentral storage layer.

The development shallowly embeds the two storage backends of the repository
(`DatabaseStorage` and `MemStorage`, both implementing the `IStorage`
contract) as pure Lean functions over explicit state records.

Modelling conventions, chosen once and used uniformly:
* JavaScript `Date` values are UTC timestamps in integer milliseconds (`Int`);
  `new Date()` at the start of an operation becomes an explicit `now` argument.
  `setHours(0,0,0,0)` is midnight UTC of the current day; `setMonth`/
  `setFullYear` with rollover are implemented via a proleptic-Gregorian
  civil-calendar conversion, matching ECMAScript UTC date arithmetic.
* Database tables and JavaScript `Map`s are association lists in insertion
  order; `Map.set` updates in place (as in JS) and relational `UPDATE`
  touches every row matched by the `WHERE` clause.  Relational `SELECT`
  without `ORDER BY` is modelled as returning rows in insertion order.
* SQL `LIKE '%term%'` is modelled as case-sensitive substring containment
  (terms containing the SQL wild cards `%`/`_` are outside the model);
  the in-memory search lower-cases both sides, exactly as the source does.
* The random reset token produced by `crypto.getRandomValues` is an explicit
  `token` input to `createResetToken`.
* Thrown errors are `Except.error`; optional values model `undefined`/`null`;
  JavaScript truthiness of optional strings (`if (filters.search)`) treats
  both absence and the empty string as false, and `x || null` collapses the
  empty string to absence.
-/

/-! ## Entity records (from `@shared/schema` as used by the storage layer) -/

structure User where
  id : Nat
  username : String
  email : Option String
  password : String
  resetToken : Option String
  resetTokenExpiry : Option Int
  createdAt : Int
deriving DecidableEq, Repr

structure InsertUser where
  username : String
  password : String
  email : Option String
deriving DecidableEq, Repr

structure Contact where
  id : Nat
  accountId : Nat
  name : String
  mobile : String
  label : Option String
  location : Option String
  createdAt : Int
deriving DecidableEq, Repr

structure InsertContact where
  accountId : Nat
  name : String
  mobile : String
  label : Option String
  location : Option String
deriving DecidableEq, Repr

structure Campaign where
  id : Nat
  accountId : Nat
  name : String
  template : String
  contactLabel : Option String
  status : String
  scheduledFor : Option Int
  createdAt : Int
deriving DecidableEq, Repr

structure InsertCampaign where
  accountId : Nat
  name : String
  template : String
  contactLabel : Option String
  status : Option String
  scheduledFor : Option Int
deriving DecidableEq, Repr

structure Analytics where
  id : Nat
  accountId : Nat
  campaignId : Nat
  sent : Nat
  delivered : Nat
  read : Nat
  optout : Nat
  hold : Nat
  failed : Nat
  updatedAt : Int
deriving DecidableEq, Repr

structure InsertAnalytics where
  campaignId : Nat
  accountId : Nat
  sent : Option Nat
  delivered : Option Nat
  read : Option Nat
  optout : Option Nat
  hold : Option Nat
  failed : Option Nat
deriving DecidableEq, Repr

/-! ## Filter records (`ContactFilters`, `CampaignFilters`) -/

structure ContactFilters where
  search : Option String
  label : Option String
  location : Option String
  dateRange : Option String
deriving DecidableEq, Repr

structure CampaignFilters where
  search : Option String
  status : Option String
  dateRange : Option String
deriving DecidableEq, Repr

/-! ## JavaScript-semantics helpers -/

/-- Truthiness of an optional string: `undefined`/missing and `""` are falsy. -/
def isTruthy (o : Option String) : Bool :=
  match o with
  | some s => s ≠ ""
  | none => false

/-- The `x || null` idiom on an optional string: collapses `""` to absence. -/
def orNullStr (o : Option String) : Option String :=
  match o with
  | some s => if s = "" then none else some s
  | none => none

/-- Does `pre` occur at the head of `l`? (helper for substring containment). -/
def headMatch : List Char → List Char → Bool
  | [], _ => true
  | _ :: _, [] => false
  | a :: as, b :: bs => a == b && headMatch as bs

/-- Does `needle` occur somewhere inside `hay`? -/
def occursIn (needle : List Char) : List Char → Bool
  | [] => headMatch needle []
  | b :: bs => headMatch needle (b :: bs) || occursIn needle bs

/-- `strContains hay needle`: substring containment, modelling both
`LIKE '%needle%'` (case-sensitive) and JS `String.prototype.includes`. -/
def strContains (hay needle : String) : Bool :=
  occursIn needle.data hay.data

/-- JS `String.prototype.toLowerCase` on the ASCII data this repository
stores (per-character lower-casing). -/
def strLower (s : String) : String :=
  ⟨s.data.map Char.toLower⟩

/-! ## UTC calendar arithmetic (ECMAScript `Date` UTC semantics) -/

def msPerDay : Int := 86400000

def msPerHour : Int := 3600000

/-- Day number of a proleptic-Gregorian civil date (days since 1970-01-01);
also accepts an out-of-range day-of-month, which rolls over exactly as
ECMAScript date arithmetic does. -/
def daysFromCivil (y m d : Int) : Int :=
  let y2 := if m ≤ 2 then y - 1 else y
  let era := y2.fdiv 400
  let yoe := y2 - era * 400
  let mp := if m > 2 then m - 3 else m + 9
  let doy := (153 * mp + 2).fdiv 5 + d - 1
  let doe := yoe * 365 + yoe.fdiv 4 - yoe.fdiv 100 + doy
  era * 146097 + doe - 719468

/-- Civil date `(year, month 1..12, day)` of a day number. -/
def civilFromDays (z0 : Int) : Int × Int × Int :=
  let z := z0 + 719468
  let era := z.fdiv 146097
  let doe := z - era * 146097
  let yoe := (doe - doe.fdiv 1460 + doe.fdiv 36524 - doe.fdiv 146096).fdiv 365
  let y := yoe + era * 400
  let doy := doe - (365 * yoe + yoe.fdiv 4 - yoe.fdiv 100)
  let mp := (5 * doy + 2).fdiv 153
  let d := doy - (153 * mp + 2).fdiv 5 + 1
  let m := if mp < 10 then mp + 3 else mp - 9
  (if m ≤ 2 then y + 1 else y, m, d)

/-- `startDate.setHours(0, 0, 0, 0)`: midnight (UTC) of the current day. -/
def startOfDay (t : Int) : Int := t - t.emod msPerDay

/-- `startDate.setMonth(now.getMonth() - 1)`: same day-of-month one month
earlier, rolling an overflowing day forward as JS does. -/
def setMonthMinus1 (t : Int) : Int :=
  let days := t.fdiv msPerDay
  let msOfDay := t.emod msPerDay
  let c := civilFromDays days
  let y := c.1
  let m := c.2.1
  let d := c.2.2
  let y2 := if m = 1 then y - 1 else y
  let m2 := if m = 1 then (12 : Int) else m - 1
  (daysFromCivil y2 m2 1 + (d - 1)) * msPerDay + msOfDay

/-- `startDate.setFullYear(now.getFullYear() - 1)`: same calendar date one
year earlier, rolling Feb 29 forward as JS does. -/
def setFullYearMinus1 (t : Int) : Int :=
  let days := t.fdiv msPerDay
  let msOfDay := t.emod msPerDay
  let c := civilFromDays days
  (daysFromCivil (c.1 - 1) c.2.1 1 + (c.2.2 - 1)) * msPerDay + msOfDay

/-- The `switch (filters.dateRange)` computing `startDate` in `getContacts` /
`getCampaigns` of both backends: `startDate` begins as `new Date()` and is
only changed by a matching `case`, so an unrecognized value leaves it at
`now`. -/
def dateRangeStart (now : Int) (r : String) : Int :=
  if r = "today" then startOfDay now
  else if r = "last-week" then now - 7 * msPerDay
  else if r = "last-month" then setMonthMinus1 now
  else if r = "last-year" then setFullYearMinus1 now
  else now

/-! ## Relational backend state (`DatabaseStorage`)

Tables are lists of rows in insertion order; the serial id sequences of the
database are the `next*Id` counters. The `settings` table and the session
store are outside the claims and are not modelled. -/

structure DBState where
  users : List User
  contacts : List Contact
  campaigns : List Campaign
  analytics : List Analytics
  nextUserId : Nat
  nextContactId : Nat
  nextCampaignId : Nat
  nextAnalyticsId : Nat
deriving DecidableEq, Repr

def dbInit : DBState := ⟨[], [], [], [], 1, 1, 1, 1⟩

namespace DatabaseStorage

/-- `select from users where eq(users.id, id)`, then `result[0]` if any. -/
def getUser (s : DBState) (id : Nat) : Option User :=
  (s.users.filter (fun u => u.id == id)).head?

/-- `insert into users values({...insertUser, createdAt: new Date()})`;
the database assigns the id and leaves the reset columns at their `NULL`
defaults. -/
def createUser (s : DBState) (now : Int) (ins : InsertUser) : User × DBState :=
  let u : User :=
    { id := s.nextUserId, username := ins.username, email := ins.email,
      password := ins.password, resetToken := none, resetTokenExpiry := none,
      createdAt := now }
  (u, { s with users := s.users ++ [u], nextUserId := s.nextUserId + 1 })

/-- Looks up the user, throws `'User not found'` if absent, then updates the
row with the fresh token and a one-hour expiry, throwing if the update
matched no row. -/
def createResetToken (s : DBState) (now : Int) (token : String) (userId : Nat) :
    Except String (String × DBState) :=
  match getUser s userId with
  | none => Except.error "User not found"
  | some _ =>
    let expiry := now + msPerHour
    let updated := s.users.map (fun u =>
      if u.id == userId then
        { u with resetToken := some token, resetTokenExpiry := some expiry }
      else u)
    let returned := updated.filter (fun u => u.id == userId)
    if returned.length = 0 then Except.error "Failed to create reset token"
    else Except.ok (token, { s with users := updated })

/-- `select from users where eq(users.resetToken, token)`; the first row, if
any, is accepted only when its expiry exists and is not in the past. -/
def verifyResetToken (s : DBState) (now : Int) (token : String) : Option User :=
  match (s.users.filter (fun u => u.resetToken == some token)).head? with
  | none => none
  | some u =>
    match u.resetTokenExpiry with
    | none => none
    | some e => if e < now then none else some u

/-- `update users set {password, resetToken: null, resetTokenExpiry: null}
where eq(users.id, userId) returning`; success is `result.length > 0`. -/
def updatePassword (s : DBState) (userId : Nat) (password : String) :
    Bool × DBState :=
  let updated := s.users.map (fun u =>
    if u.id == userId then
      { u with password := password, resetToken := none, resetTokenExpiry := none }
    else u)
  let returned := updated.filter (fun u => u.id == userId)
  (decide (0 < returned.length), { s with users := updated })

/-- `getContacts`: scoped to the account; each truthy filter field returns
its own query immediately, so only the first truthy field is ever applied. -/
def getContacts (s : DBState) (now : Int) (accountId : Nat)
    (filters : Option ContactFilters) : List Contact :=
  let base := s.contacts.filter (fun c => c.accountId == accountId)
  match filters with
  | none => base
  | some f =>
    if isTruthy f.search then
      let term := f.search.getD ""
      s.contacts.filter (fun c =>
        c.accountId == accountId && (strContains c.name term || strContains c.mobile term))
    else if isTruthy f.label then
      s.contacts.filter (fun c => c.accountId == accountId && c.label == f.label)
    else if isTruthy f.location then
      s.contacts.filter (fun c => c.accountId == accountId && c.location == f.location)
    else if isTruthy f.dateRange then
      let start := dateRangeStart now (f.dateRange.getD "")
      s.contacts.filter (fun c =>
        c.accountId == accountId && decide (start ≤ c.createdAt))
    else base

/-- `select from contacts where and(eq(mobile), eq(accountId))`, first row. -/
def getContactByMobile (s : DBState) (mobile : String) (accountId : Nat) :
    Option Contact :=
  (s.contacts.filter (fun c => c.mobile == mobile && c.accountId == accountId)).head?

/-- Insert with `location: insertContact.location || null`,
`label: insertContact.label || null`, `createdAt: new Date()`. -/
def createContact (s : DBState) (now : Int) (ins : InsertContact) :
    Contact × DBState :=
  let c : Contact :=
    { id := s.nextContactId, accountId := ins.accountId, name := ins.name,
      mobile := ins.mobile, label := orNullStr ins.label,
      location := orNullStr ins.location, createdAt := now }
  (c, { s with contacts := s.contacts ++ [c],
               nextContactId := s.nextContactId + 1 })

/-- The sequential import loop: per record, when deduplication is on, an
existing `(mobile, accountId)` match in the current state counts as a
duplicate and is skipped, otherwise the record is inserted. -/
def importContacts : DBState → Int → List InsertContact → Bool →
    (Nat × Nat) × DBState
  | s, _, [], _ => ((0, 0), s)
  | s, now, c :: rest, dedup =>
    if dedup && (getContactByMobile s c.mobile c.accountId).isSome then
      let r := importContacts s now rest dedup
      ((r.1.1, r.1.2 + 1), r.2)
    else
      let s1 := (createContact s now c).2
      let r := importContacts s1 now rest dedup
      ((r.1.1 + 1, r.1.2), r.2)

/-- `getCampaigns`: same short-circuiting filter structure as `getContacts`,
with `status` in place of `label` and no location filter. -/
def getCampaigns (s : DBState) (now : Int) (accountId : Nat)
    (filters : Option CampaignFilters) : List Campaign :=
  let base := s.campaigns.filter (fun c => c.accountId == accountId)
  match filters with
  | none => base
  | some f =>
    if isTruthy f.search then
      let term := f.search.getD ""
      s.campaigns.filter (fun c => c.accountId == accountId && strContains c.name term)
    else if isTruthy f.status then
      s.campaigns.filter (fun c =>
        c.accountId == accountId && c.status == f.status.getD "")
    else if isTruthy f.dateRange then
      let start := dateRangeStart now (f.dateRange.getD "")
      s.campaigns.filter (fun c =>
        c.accountId == accountId && decide (start ≤ c.createdAt))
    else base

/-- `select from campaigns where eq(campaigns.id, id)`, first row. -/
def getCampaignById (s : DBState) (id : Nat) : Option Campaign :=
  (s.campaigns.filter (fun c => c.id == id)).head?

/-- Insert with `contactLabel: insertCampaign.contactLabel || null`, a forced
`status: "draft"` (whatever the caller supplied), and `createdAt: new Date()`.
`scheduledFor` is passed through from the input (a `Date` is always truthy). -/
def createCampaign (s : DBState) (now : Int) (ins : InsertCampaign) :
    Campaign × DBState :=
  let c : Campaign :=
    { id := s.nextCampaignId, accountId := ins.accountId, name := ins.name,
      template := ins.template, contactLabel := orNullStr ins.contactLabel,
      status := "draft", scheduledFor := ins.scheduledFor, createdAt := now }
  (c, { s with campaigns := s.campaigns ++ [c],
               nextCampaignId := s.nextCampaignId + 1 })

/-- Upsert keyed on `campaignId`: if a row exists it is overwritten with the
input merged onto it (`?? existing` per counter, so an explicit 0 wins) and a
fresh `updatedAt`; otherwise a new row is inserted with `|| 0` defaults. -/
def createOrUpdateAnalytics (s : DBState) (now : Int) (ins : InsertAnalytics) :
    Analytics × DBState :=
  match (s.analytics.filter (fun a => a.campaignId == ins.campaignId)).head? with
  | some ex =>
    let newA : Analytics :=
      { id := ex.id, campaignId := ins.campaignId, accountId := ins.accountId,
        updatedAt := now,
        sent := ins.sent.getD ex.sent, delivered := ins.delivered.getD ex.delivered,
        read := ins.read.getD ex.read, optout := ins.optout.getD ex.optout,
        hold := ins.hold.getD ex.hold, failed := ins.failed.getD ex.failed }
    (newA, { s with analytics :=
        s.analytics.map (fun a => if a.id == ex.id then newA else a) })
  | none =>
    let a : Analytics :=
      { id := s.nextAnalyticsId, campaignId := ins.campaignId,
        accountId := ins.accountId, updatedAt := now,
        sent := ins.sent.getD 0, delivered := ins.delivered.getD 0,
        read := ins.read.getD 0, optout := ins.optout.getD 0,
        hold := ins.hold.getD 0, failed := ins.failed.getD 0 }
    (a, { s with analytics := s.analytics ++ [a],
                 nextAnalyticsId := s.nextAnalyticsId + 1 })

/-- `update campaigns set {status: "active"} where eq(campaigns.id, id)
returning`; on a match, seeds analytics with explicit zero counters and the
updated row's `accountId`, then returns `true`. -/
def launchCampaign (s : DBState) (now : Int) (id : Nat) : Bool × DBState :=
  let updated := s.campaigns.map (fun c =>
    if c.id == id then { c with status := "active" } else c)
  let returned := updated.filter (fun c => c.id == id)
  match returned.head? with
  | none => (false, { s with campaigns := updated })
  | some c0 =>
    let s1 : DBState := { s with campaigns := updated }
    let r := createOrUpdateAnalytics s1 now
      { campaignId := id, accountId := c0.accountId,
        sent := some 0, delivered := some 0, read := some 0,
        optout := some 0, hold := some 0, failed := some 0 }
    (true, r.2)

/-- `getAnalytics`: account scope, narrowed to one campaign when the
`campaignId` argument is truthy (`0` and absence are both falsy). -/
def getAnalytics (s : DBState) (accountId : Nat) (campaignId : Option Nat) :
    List Analytics :=
  if campaignId.getD 0 ≠ 0 then
    s.analytics.filter (fun a =>
      a.accountId == accountId && a.campaignId == campaignId.getD 0)
  else
    s.analytics.filter (fun a => a.accountId == accountId)

end DatabaseStorage

/-! ## In-memory backend state (`MemStorage`)

Each `Map<number, T>` is an association list in insertion order with the JS
`Map` update-in-place semantics. -/

/-- JS `Map.prototype.get`. -/
def mapGet {α : Type} (m : List (Nat × α)) (k : Nat) : Option α :=
  (m.find? (fun p => p.1 == k)).map (fun p => p.2)

/-- JS `Map.prototype.set`: replaces in place when the key is present,
appends otherwise. -/
def mapSet {α : Type} (m : List (Nat × α)) (k : Nat) (v : α) : List (Nat × α) :=
  if m.any (fun p => p.1 == k) then
    m.map (fun p => if p.1 == k then (k, v) else p)
  else m ++ [(k, v)]

/-- `Array.from(map.values())` in insertion order. -/
def mapValues {α : Type} (m : List (Nat × α)) : List α := m.map (fun p => p.2)

structure MemState where
  users : List (Nat × User)
  contacts : List (Nat × Contact)
  campaigns : List (Nat × Campaign)
  analyticsData : List (Nat × Analytics)
  userCurrentId : Nat
  contactCurrentId : Nat
  campaignCurrentId : Nat
  analyticsCurrentId : Nat
deriving DecidableEq, Repr

def memInit : MemState := ⟨[], [], [], [], 1, 1, 1, 1⟩

namespace MemStorage

/-- `this.users.get(id)`. -/
def getUser (s : MemState) (id : Nat) : Option User :=
  mapGet s.users id

/-- Assigns `userCurrentId++`, stamps `createdAt`, applies
`email: insertUser.email || null` and initializes the reset fields absent. -/
def createUser (s : MemState) (now : Int) (ins : InsertUser) : User × MemState :=
  let id := s.userCurrentId
  let u : User :=
    { id := id, username := ins.username, email := orNullStr ins.email,
      password := ins.password, resetToken := none, resetTokenExpiry := none,
      createdAt := now }
  (u, { s with users := mapSet s.users id u, userCurrentId := id + 1 })

/-- Looks up the user, throws `'User not found'` if absent, then stores the
token and a one-hour expiry on a copy of the user. -/
def createResetToken (s : MemState) (now : Int) (token : String) (userId : Nat) :
    Except String (String × MemState) :=
  match getUser s userId with
  | none => Except.error "User not found"
  | some user =>
    let updatedUser :=
      { user with resetToken := some token, resetTokenExpiry := some (now + msPerHour) }
    Except.ok (token, { s with users := mapSet s.users userId updatedUser })

/-- Scans the values for a matching `resetToken`, then applies the same
expiry check as the relational backend. -/
def verifyResetToken (s : MemState) (now : Int) (token : String) : Option User :=
  match (mapValues s.users).find? (fun u => u.resetToken == some token) with
  | none => none
  | some u =>
    match u.resetTokenExpiry with
    | none => none
    | some e => if e < now then none else some u

/-- Returns `false` when the user is absent; otherwise stores a copy with the
new password and cleared reset fields. -/
def updatePassword (s : MemState) (userId : Nat) (password : String) :
    Bool × MemState :=
  match getUser s userId with
  | none => (false, s)
  | some user =>
    let updatedUser :=
      { user with password := password, resetToken := none, resetTokenExpiry := none }
    (true, { s with users := mapSet s.users userId updatedUser })

/-- `getContacts`: account scope, then each truthy filter field narrows the
running list in turn — filters compose cumulatively, nothing short-circuits. -/
def getContacts (s : MemState) (now : Int) (accountId : Nat)
    (filters : Option ContactFilters) : List Contact :=
  let base := (mapValues s.contacts).filter (fun c => c.accountId == accountId)
  match filters with
  | none => base
  | some f =>
    let l1 :=
      if isTruthy f.search then
        let term := strLower (f.search.getD "")
        base.filter (fun c =>
          strContains (strLower c.name) term || strContains (strLower c.mobile) term)
      else base
    let l2 := if isTruthy f.label then l1.filter (fun c => c.label == f.label) else l1
    let l3 :=
      if isTruthy f.location then l2.filter (fun c => c.location == f.location) else l2
    if isTruthy f.dateRange then
      let start := dateRangeStart now (f.dateRange.getD "")
      l3.filter (fun c => decide (start ≤ c.createdAt))
    else l3

/-- Scan of the values for matching `(mobile, accountId)`. -/
def getContactByMobile (s : MemState) (mobile : String) (accountId : Nat) :
    Option Contact :=
  (mapValues s.contacts).find? (fun c => c.mobile == mobile && c.accountId == accountId)

/-- Assigns `contactCurrentId++`, stamps `createdAt`, and applies the
`|| null` coercion to `location` and `label`. -/
def createContact (s : MemState) (now : Int) (ins : InsertContact) :
    Contact × MemState :=
  let id := s.contactCurrentId
  let c : Contact :=
    { id := id, accountId := ins.accountId, name := ins.name,
      mobile := ins.mobile, label := orNullStr ins.label,
      location := orNullStr ins.location, createdAt := now }
  (c, { s with contacts := mapSet s.contacts id c, contactCurrentId := id + 1 })

/-- Same sequential import loop as the relational backend, over the map. -/
def importContacts : MemState → Int → List InsertContact → Bool →
    (Nat × Nat) × MemState
  | s, _, [], _ => ((0, 0), s)
  | s, now, c :: rest, dedup =>
    if dedup && (getContactByMobile s c.mobile c.accountId).isSome then
      let r := importContacts s now rest dedup
      ((r.1.1, r.1.2 + 1), r.2)
    else
      let s1 := (createContact s now c).2
      let r := importContacts s1 now rest dedup
      ((r.1.1 + 1, r.1.2), r.2)

/-- `getCampaigns`: cumulative filters, like the in-memory `getContacts`. -/
def getCampaigns (s : MemState) (now : Int) (accountId : Nat)
    (filters : Option CampaignFilters) : List Campaign :=
  let base := (mapValues s.campaigns).filter (fun c => c.accountId == accountId)
  match filters with
  | none => base
  | some f =>
    let l1 :=
      if isTruthy f.search then
        let term := strLower (f.search.getD "")
        base.filter (fun c => strContains (strLower c.name) term)
      else base
    let l2 :=
      if isTruthy f.status then
        l1.filter (fun c => c.status == f.status.getD "")
      else l1
    if isTruthy f.dateRange then
      let start := dateRangeStart now (f.dateRange.getD "")
      l2.filter (fun c => decide (start ≤ c.createdAt))
    else l2

/-- `this.campaigns.get(id)`. -/
def getCampaignById (s : MemState) (id : Nat) : Option Campaign :=
  mapGet s.campaigns id

/-- Assigns `campaignCurrentId++` and builds the campaign with an explicit
field list: coerced `contactLabel`, forced `status: "draft"`, pass-through
`scheduledFor` (a `Date` is always truthy, so `|| null` keeps it). -/
def createCampaign (s : MemState) (now : Int) (ins : InsertCampaign) :
    Campaign × MemState :=
  let id := s.campaignCurrentId
  let c : Campaign :=
    { id := id, name := ins.name, template := ins.template,
      contactLabel := orNullStr ins.contactLabel, status := "draft",
      scheduledFor := ins.scheduledFor, accountId := ins.accountId,
      createdAt := now }
  (c, { s with campaigns := mapSet s.campaigns id c,
               campaignCurrentId := id + 1 })

/-- Upsert keyed on `campaignId`, merging onto the found row exactly as the
relational backend does. -/
def createOrUpdateAnalytics (s : MemState) (now : Int) (ins : InsertAnalytics) :
    Analytics × MemState :=
  match (mapValues s.analyticsData).find? (fun a => a.campaignId == ins.campaignId) with
  | some ex =>
    let updated : Analytics :=
      { id := ex.id, campaignId := ins.campaignId, accountId := ins.accountId,
        updatedAt := now,
        sent := ins.sent.getD ex.sent, delivered := ins.delivered.getD ex.delivered,
        read := ins.read.getD ex.read, optout := ins.optout.getD ex.optout,
        hold := ins.hold.getD ex.hold, failed := ins.failed.getD ex.failed }
    (updated, { s with analyticsData := mapSet s.analyticsData ex.id updated })
  | none =>
    let id := s.analyticsCurrentId
    let a : Analytics :=
      { id := id, campaignId := ins.campaignId, accountId := ins.accountId,
        updatedAt := now,
        sent := ins.sent.getD 0, delivered := ins.delivered.getD 0,
        read := ins.read.getD 0, optout := ins.optout.getD 0,
        hold := ins.hold.getD 0, failed := ins.failed.getD 0 }
    (a, { s with analyticsData := mapSet s.analyticsData id a,
                 analyticsCurrentId := id + 1 })

/-- Returns `false` when the campaign is absent; otherwise stores an
`"active"` copy and seeds analytics with explicit zero counters and the
campaign's `accountId`. -/
def launchCampaign (s : MemState) (now : Int) (id : Nat) : Bool × MemState :=
  match mapGet s.campaigns id with
  | none => (false, s)
  | some campaign =>
    let s1 : MemState :=
      { s with campaigns := mapSet s.campaigns id { campaign with status := "active" } }
    let r := createOrUpdateAnalytics s1 now
      { campaignId := id, accountId := campaign.accountId,
        sent := some 0, delivered := some 0, read := some 0,
        optout := some 0, hold := some 0, failed := some 0 }
    (true, r.2)

/-- Account scope, then a further narrowing when `campaignId` is truthy. -/
def getAnalytics (s : MemState) (accountId : Nat) (campaignId : Option Nat) :
    List Analytics :=
  let base := (mapValues s.analyticsData).filter (fun a => a.accountId == accountId)
  if campaignId.getD 0 ≠ 0 then
    base.filter (fun a => a.campaignId == campaignId.getD 0)
  else base

end MemStorage

/-! ## Coupling between the two backends

`MemStorage` states are related to `DatabaseStorage` states by flattening
each map to its value list.  `goodMap` collects the structural invariants a
JS `Map` keyed by entity id always satisfies here: every key equals its
value's id, keys are distinct (a `Map` cannot hold a key twice), and all
keys are below the running id counter. -/

@[reducible]
def goodMap {α : Type} (m : List (Nat × α)) (f : α → Nat) (ctr : Nat) : Prop :=
  (∀ p ∈ m, p.1 = f p.2) ∧ (m.map Prod.fst).Nodup ∧ ∀ p ∈ m, p.1 < ctr

@[reducible]
def Coupled (m : MemState) (d : DBState) : Prop :=
  mapValues m.users = d.users ∧
  goodMap m.users User.id m.userCurrentId ∧
  m.userCurrentId = d.nextUserId ∧
  mapValues m.contacts = d.contacts ∧
  goodMap m.contacts Contact.id m.contactCurrentId ∧
  m.contactCurrentId = d.nextContactId ∧
  mapValues m.campaigns = d.campaigns ∧
  goodMap m.campaigns Campaign.id m.campaignCurrentId ∧
  m.campaignCurrentId = d.nextCampaignId ∧
  mapValues m.analyticsData = d.analytics ∧
  goodMap m.analyticsData Analytics.id m.analyticsCurrentId ∧
  m.analyticsCurrentId = d.nextAnalyticsId

/-- The relational image of an in-memory state. -/
def toDB (m : MemState) : DBState :=
  ⟨mapValues m.users, mapValues m.contacts, mapValues m.campaigns,
   mapValues m.analyticsData, m.userCurrentId, m.contactCurrentId,
   m.campaignCurrentId, m.analyticsCurrentId⟩

/-- Structural well-formedness of an in-memory state on its own. -/
@[reducible]
def MemWF (m : MemState) : Prop := Coupled m (toDB m)

/-- Well-formedness of an analytics table: distinct row ids, at most one row
per `campaignId` (the upsert key), ids below the id sequence. -/
@[reducible]
def analyticsWF (l : List Analytics) (ctr : Nat) : Prop :=
  (l.map (fun a => a.id)).Nodup ∧
  (l.map (fun a => a.campaignId)).Nodup ∧
  ∀ a ∈ l, a.id < ctr

/-! ## Operation traces

One constructor per storage operation named in the spec's testable
properties (plus `createUser`, needed to set up the user-token properties).
The nondeterministic inputs of the implementations — the wall clock and the
random reset token — are explicit payload so that "equivalent inputs" can be
fed to both backends. -/

inductive Op where
  | createUser (now : Int) (ins : InsertUser)
  | createContact (now : Int) (ins : InsertContact)
  | getContactByMobile (mobile : String) (accountId : Nat)
  | importContacts (now : Int) (batch : List InsertContact) (dedup : Bool)
  | getContacts (now : Int) (accountId : Nat) (filters : Option ContactFilters)
  | createCampaign (now : Int) (ins : InsertCampaign)
  | getCampaigns (now : Int) (accountId : Nat) (filters : Option CampaignFilters)
  | launchCampaign (now : Int) (id : Nat)
  | getAnalytics (accountId : Nat) (campaignId : Option Nat)
  | createOrUpdateAnalytics (now : Int) (ins : InsertAnalytics)
  | createResetToken (now : Int) (token : String) (userId : Nat)
  | verifyResetToken (now : Int) (token : String)
  | updatePassword (userId : Nat) (password : String)
deriving DecidableEq, Repr

inductive OutVal where
  | user (u : User)
  | contact (c : Contact)
  | contactOpt (c : Option Contact)
  | contactList (l : List Contact)
  | campaign (c : Campaign)
  | campaignList (l : List Campaign)
  | analyticsRow (a : Analytics)
  | analyticsList (l : List Analytics)
  | importCounts (imported duplicates : Nat)
  | flag (b : Bool)
  | tokenOk (token : String)
  | tokenErr (msg : String)
  | userOpt (u : Option User)
deriving DecidableEq, Repr

def dbStep (s : DBState) : Op → OutVal × DBState
  | .createUser now ins =>
    let r := DatabaseStorage.createUser s now ins; (.user r.1, r.2)
  | .createContact now ins =>
    let r := DatabaseStorage.createContact s now ins; (.contact r.1, r.2)
  | .getContactByMobile mobile accountId =>
    (.contactOpt (DatabaseStorage.getContactByMobile s mobile accountId), s)
  | .importContacts now batch dedup =>
    let r := DatabaseStorage.importContacts s now batch dedup
    (.importCounts r.1.1 r.1.2, r.2)
  | .getContacts now accountId filters =>
    (.contactList (DatabaseStorage.getContacts s now accountId filters), s)
  | .createCampaign now ins =>
    let r := DatabaseStorage.createCampaign s now ins; (.campaign r.1, r.2)
  | .getCampaigns now accountId filters =>
    (.campaignList (DatabaseStorage.getCampaigns s now accountId filters), s)
  | .launchCampaign now id =>
    let r := DatabaseStorage.launchCampaign s now id; (.flag r.1, r.2)
  | .getAnalytics accountId campaignId =>
    (.analyticsList (DatabaseStorage.getAnalytics s accountId campaignId), s)
  | .createOrUpdateAnalytics now ins =>
    let r := DatabaseStorage.createOrUpdateAnalytics s now ins
    (.analyticsRow r.1, r.2)
  | .createResetToken now token userId =>
    match DatabaseStorage.createResetToken s now token userId with
    | Except.ok r => (.tokenOk r.1, r.2)
    | Except.error e => (.tokenErr e, s)
  | .verifyResetToken now token =>
    (.userOpt (DatabaseStorage.verifyResetToken s now token), s)
  | .updatePassword userId password =>
    let r := DatabaseStorage.updatePassword s userId password; (.flag r.1, r.2)

def memStep (s : MemState) : Op → OutVal × MemState
  | .createUser now ins =>
    let r := MemStorage.createUser s now ins; (.user r.1, r.2)
  | .createContact now ins =>
    let r := MemStorage.createContact s now ins; (.contact r.1, r.2)
  | .getContactByMobile mobile accountId =>
    (.contactOpt (MemStorage.getContactByMobile s mobile accountId), s)
  | .importContacts now batch dedup =>
    let r := MemStorage.importContacts s now batch dedup
    (.importCounts r.1.1 r.1.2, r.2)
  | .getContacts now accountId filters =>
    (.contactList (MemStorage.getContacts s now accountId filters), s)
  | .createCampaign now ins =>
    let r := MemStorage.createCampaign s now ins; (.campaign r.1, r.2)
  | .getCampaigns now accountId filters =>
    (.campaignList (MemStorage.getCampaigns s now accountId filters), s)
  | .launchCampaign now id =>
    let r := MemStorage.launchCampaign s now id; (.flag r.1, r.2)
  | .getAnalytics accountId campaignId =>
    (.analyticsList (MemStorage.getAnalytics s accountId campaignId), s)
  | .createOrUpdateAnalytics now ins =>
    let r := MemStorage.createOrUpdateAnalytics s now ins
    (.analyticsRow r.1, r.2)
  | .createResetToken now token userId =>
    match MemStorage.createResetToken s now token userId with
    | Except.ok r => (.tokenOk r.1, r.2)
    | Except.error e => (.tokenErr e, s)
  | .verifyResetToken now token =>
    (.userOpt (MemStorage.verifyResetToken s now token), s)
  | .updatePassword userId password =>
    let r := MemStorage.updatePassword s userId password; (.flag r.1, r.2)

def runDB : DBState → List Op → List OutVal × DBState
  | s, [] => ([], s)
  | s, op :: ops =>
    let r := dbStep s op
    let rest := runDB r.2 ops
    (r.1 :: rest.1, rest.2)

def runMem : MemState → List Op → List OutVal × MemState
  | s, [] => ([], s)
  | s, op :: ops =>
    let r := memStep s op
    let rest := runMem r.2 ops
    (r.1 :: rest.1, rest.2)

/-! ## Restrictions under which the backends do agree -/

/-- A contact filter object on which the two implementations agree: no
search term (in-memory search is case-insensitive, relational search is
case-sensitive) and at most one truthy field (the relational backend stops
at the first truthy field, the in-memory backend applies every one). -/
def contactFiltersOk (f : ContactFilters) : Bool :=
  !isTruthy f.search &&
    decide ((if isTruthy f.label then 1 else 0) +
      (if isTruthy f.location then 1 else 0) +
      (if isTruthy f.dateRange then (1 : Nat) else 0) ≤ 1)

/-- The analogous restriction for campaign filters. -/
def campaignFiltersOk (f : CampaignFilters) : Bool :=
  !isTruthy f.search &&
    decide ((if isTruthy f.status then 1 else 0) +
      (if isTruthy f.dateRange then (1 : Nat) else 0) ≤ 1)

/-- Operations on which the two backends are observably equivalent:
everything except filtered reads that use a search term or combine several
filter fields, and user creation with the empty-string email (which the
in-memory backend coerces to absent and the relational backend stores). -/
def opOk : Op → Bool
  | .getContacts _ _ (some f) => contactFiltersOk f
  | .getCampaigns _ _ (some f) => campaignFiltersOk f
  | .createUser _ ins => ins.email != some ""
  | _ => true

/-- The first truthy contact-filter field, kept alone — what the relational
backend effectively applies. -/
def firstFilterOnly (f : ContactFilters) : ContactFilters :=
  if isTruthy f.search then ⟨f.search, none, none, none⟩
  else if isTruthy f.label then ⟨none, f.label, none, none⟩
  else if isTruthy f.location then ⟨none, none, f.location, none⟩
  else ⟨none, none, none, f.dateRange⟩

/-- The first truthy campaign-filter field, kept alone. -/
def firstCampaignFilterOnly (f : CampaignFilters) : CampaignFilters :=
  if isTruthy f.search then ⟨f.search, none, none⟩
  else if isTruthy f.status then ⟨none, f.status, none⟩
  else ⟨none, none, f.dateRange⟩

/-! ## Generic list and map lemmas -/

theorem filterHead_eq_find {α : Type} (p : α → Bool) (l : List α) :
    (l.filter p).head? = l.find? p := by
  induction l with
  | nil => rfl
  | cons a l ih =>
    by_cases h : p a
    · simp [List.filter_cons, List.find?_cons, h]
    · simp [List.filter_cons, List.find?_cons, h, ih]

theorem mapGet_eq_find {α : Type} (f : α → Nat) (m : List (Nat × α)) (k : Nat)
    (hk : ∀ p ∈ m, p.1 = f p.2) :
    mapGet m k = (mapValues m).find? (fun v => f v == k) := by
  induction m with
  | nil => rfl
  | cons p m ih =>
    have hp : p.1 = f p.2 := hk p (List.mem_cons_self _ _)
    have hrest : ∀ q ∈ m, q.1 = f q.2 := fun q hq => hk q (List.mem_cons_of_mem _ hq)
    by_cases h : p.1 = k
    · simp [mapGet, mapValues, List.find?_cons, ← hp, h]
    · have h2 : (f p.2 == k) = false := by
        rw [← hp]; exact beq_false_of_ne h
      simp only [mapGet, mapValues, List.map_cons, List.find?_cons, h2,
        beq_false_of_ne h]
      exact ih hrest

theorem mapAny_eq_isSome_get {α : Type} (m : List (Nat × α)) (k : Nat) :
    m.any (fun p => p.1 == k) = (mapGet m k).isSome := by
  induction m with
  | nil => rfl
  | cons p m ih =>
    by_cases h : p.1 = k
    · simp [mapGet, List.find?_cons, h]
    · simp only [List.any_cons, mapGet, List.find?_cons, beq_false_of_ne h,
        Bool.false_or]
      exact ih

theorem mapSet_absent {α : Type} (m : List (Nat × α)) (k : Nat) (v : α)
    (h : m.any (fun p => p.1 == k) = false) :
    mapSet m k v = m ++ [(k, v)] := by
  simp [mapSet, h]

theorem goodMap_absent {α : Type} (f : α → Nat) (m : List (Nat × α)) (ctr k : Nat)
    (hg : goodMap m f ctr) (hk : ctr ≤ k) :
    m.any (fun p => p.1 == k) = false := by
  rw [Bool.eq_false_iff]
  intro hany
  obtain ⟨p, hp, hpk⟩ := List.any_eq_true.mp hany
  have hlt := hg.2.2 p hp
  have : p.1 = k := by simpa using hpk
  omega

theorem mapValues_append {α : Type} (m : List (Nat × α)) (k : Nat) (v : α) :
    mapValues (m ++ [(k, v)]) = mapValues m ++ [v] := by
  simp [mapValues]

theorem goodMap_insert {α : Type} (f : α → Nat) (m : List (Nat × α)) (ctr : Nat)
    (hg : goodMap m f ctr) (v : α) (hv : f v = ctr) :
    goodMap (m ++ [(ctr, v)]) f (ctr + 1) := by
  obtain ⟨hk, hnd, hlt⟩ := hg
  refine ⟨?_, ?_, ?_⟩
  · intro p hp
    rcases List.mem_append.mp hp with h | h
    · exact hk p h
    · simp only [List.mem_singleton] at h
      subst h
      exact hv.symm
  · rw [List.map_append, List.nodup_append]
    refine ⟨hnd, List.nodup_singleton _, ?_⟩
    intro x hx hy
    simp only [List.map_cons, List.map_nil, List.mem_singleton] at hy
    subst hy
    obtain ⟨p, hp, hpx⟩ := List.mem_map.mp hx
    have := hlt p hp
    omega
  · intro p hp
    rcases List.mem_append.mp hp with h | h
    · have := hlt p h; omega
    · simp only [List.mem_singleton] at h
      subst h
      omega

theorem mapGet_mem {α : Type} (m : List (Nat × α)) (k : Nat) (a : α)
    (h : mapGet m k = some a) : (k, a) ∈ m := by
  induction m with
  | nil => simp [mapGet] at h
  | cons p m ih =>
    obtain ⟨k1, v1⟩ := p
    by_cases hp : k1 = k
    · subst hp
      have hv : v1 = a := by simpa [mapGet, List.find?_cons] using h
      subst hv
      exact List.mem_cons_self _ _
    · have h2 : mapGet m k = some a := by
        simpa [mapGet, List.find?_cons, beq_false_of_ne hp] using h
      exact List.mem_cons_of_mem _ (ih h2)

theorem mapValues_mapSet_update {α : Type} (f : α → Nat) (g : α → α)
    (m : List (Nat × α)) (k : Nat) (a : α)
    (hk : ∀ p ∈ m, p.1 = f p.2) (hnd : (m.map Prod.fst).Nodup)
    (hget : mapGet m k = some a) :
    mapValues (mapSet m k (g a)) =
      (mapValues m).map (fun x => if f x == k then g x else x) := by
  induction m with
  | nil => simp [mapGet] at hget
  | cons p m ih =>
    have hp : p.1 = f p.2 := hk p (List.mem_cons_self _ _)
    have hrest : ∀ q ∈ m, q.1 = f q.2 := fun q hq => hk q (List.mem_cons_of_mem _ hq)
    have hndrest : (m.map Prod.fst).Nodup := (List.nodup_cons.mp hnd).2
    have hnotin : p.1 ∉ m.map Prod.fst := (List.nodup_cons.mp hnd).1
    by_cases hpk : p.1 = k
    · -- the head is the matched entry; the rest is untouched
      have ha : a = p.2 := by
        simp [mapGet, List.find?_cons, hpk] at hget
        exact hget.symm
      subst ha
      have hany : (p :: m).any (fun q => q.1 == k) = true := by
        simp [List.any_cons, hpk]
      rw [mapSet, if_pos hany]
      simp only [mapValues, List.map_cons, List.map_map]
      have hfk : (f p.2 == k) = true := by rw [← hp, hpk]; exact beq_self_eq_true k
      rw [if_pos (by rw [hpk]; exact beq_self_eq_true k), hfk]
      simp only [if_true]
      congr 1
      apply List.map_congr_left
      intro q hq
      have hqk : q.1 ≠ k := by
        intro h
        exact hnotin (hpk ▸ h ▸ List.mem_map_of_mem Prod.fst hq)
      have hfqk : ¬(f q.2 = k) := by
        rw [← hrest q hq]; exact hqk
      simp [hqk, hfqk]
    · -- the head is untouched; recurse into the tail
      have hget' : mapGet m k = some a := by
        simpa [mapGet, List.find?_cons, beq_false_of_ne hpk] using hget
      have hany : m.any (fun q => q.1 == k) = true := by
        rw [mapAny_eq_isSome_get, hget']; rfl
      have hany2 : (p :: m).any (fun q => q.1 == k) = true := by
        simp [List.any_cons, hany]
      have hfpk : (f p.2 == k) = false := by
        rw [← hp]; exact beq_false_of_ne hpk
      rw [mapSet, if_pos hany2]
      simp only [mapValues, List.map_cons, beq_false_of_ne hpk, if_false, hfpk]
      have := ih hrest hndrest hget'
      rw [mapSet, if_pos hany] at this
      simpa [mapValues] using this

theorem mapSet_keys_of_present {α : Type} (m : List (Nat × α)) (k : Nat) (v : α)
    (h : m.any (fun p => p.1 == k) = true) :
    (mapSet m k v).map Prod.fst = m.map Prod.fst := by
  rw [mapSet, if_pos h, List.map_map]
  apply List.map_congr_left
  intro q _
  by_cases hq : q.1 = k
  · simp [hq]
  · simp [hq]

theorem goodMap_mapSet_update {α : Type} (f : α → Nat) (m : List (Nat × α))
    (ctr k : Nat) (v : α)
    (hg : goodMap m f ctr) (hv : f v = k)
    (hany : m.any (fun p => p.1 == k) = true) :
    goodMap (mapSet m k v) f ctr := by
  obtain ⟨hk, hnd, hlt⟩ := hg
  refine ⟨?_, ?_, ?_⟩
  · intro p hp
    rw [mapSet, if_pos hany] at hp
    obtain ⟨q, hq, hpq⟩ := List.mem_map.mp hp
    by_cases hqk : q.1 = k
    · rw [if_pos (beq_iff_eq.mpr hqk)] at hpq
      rw [← hpq, hv]
    · rw [if_neg (by simp [beq_false_of_ne hqk])] at hpq
      rw [← hpq]
      exact hk q hq
  · rw [mapSet_keys_of_present m k v hany]
    exact hnd
  · intro p hp
    rw [mapSet, if_pos hany] at hp
    obtain ⟨q, hq, hpq⟩ := List.mem_map.mp hp
    by_cases hqk : q.1 = k
    · rw [if_pos (beq_iff_eq.mpr hqk)] at hpq
      have := hlt q hq
      rw [← hpq]
      simpa [← hqk] using this
    · rw [if_neg (by simp [beq_false_of_ne hqk])] at hpq
      rw [← hpq]
      exact hlt q hq

theorem find_map_ite {α : Type} (p : α → Bool) (g : α → α) (l : List α)
    (hg : ∀ x, p (g x) = p x) :
    (l.map (fun x => if p x then g x else x)).find? p = (l.find? p).map g := by
  induction l with
  | nil => rfl
  | cons a l ih =>
    cases h : p a with
    | true => simp [List.find?_cons, h, hg]
    | false => simp [List.find?_cons, h, hg, ih]

theorem filter_map_ite {α : Type} (p : α → Bool) (g : α → α) (l : List α)
    (hg : ∀ x, p (g x) = p x) :
    (l.map (fun x => if p x then g x else x)).filter p = (l.filter p).map g := by
  induction l with
  | nil => rfl
  | cons a l ih =>
    cases h : p a with
    | true => simp [List.filter_cons, h, hg, ih]
    | false => simp [List.filter_cons, h, hg, ih]

theorem map_ite_id_of_none {α : Type} (p : α → Bool) (g : α → α) (l : List α)
    (h : l.find? p = none) :
    l.map (fun x => if p x then g x else x) = l := by
  have hall := List.find?_eq_none.mp h
  calc l.map (fun x => if p x then g x else x) = l.map id := by
        apply List.map_congr_left
        intro a ha
        simp [hall a ha]
    _ = l := List.map_id l

theorem filter_filter_and {α : Type} (p q : α → Bool) (l : List α) :
    (l.filter p).filter q = l.filter (fun a => p a && q a) := by
  induction l with
  | nil => rfl
  | cons a l ih =>
    by_cases hp : p a <;> by_cases hq : q a <;>
      simp [List.filter_cons, hp, hq, ih]

theorem orNullStr_eq (o : Option String) (h : o ≠ some "") : orNullStr o = o := by
  match o with
  | none => rfl
  | some s =>
    have hs : s ≠ "" := fun he => h (by rw [he])
    simp [orNullStr, hs]

theorem mapGet_of_mem_values {α : Type} (f : α → Nat) (m : List (Nat × α)) (a : α)
    (hk : ∀ p ∈ m, p.1 = f p.2) (hnd : (m.map Prod.fst).Nodup)
    (ha : a ∈ mapValues m) : mapGet m (f a) = some a := by
  induction m with
  | nil => simp [mapValues] at ha
  | cons p m ih =>
    have hp : p.1 = f p.2 := hk p (List.mem_cons_self _ _)
    have hrest : ∀ q ∈ m, q.1 = f q.2 := fun q hq => hk q (List.mem_cons_of_mem _ hq)
    have hndrest : (m.map Prod.fst).Nodup := (List.nodup_cons.mp hnd).2
    have hnotin : p.1 ∉ m.map Prod.fst := (List.nodup_cons.mp hnd).1
    rcases List.mem_cons.mp ha with h | h
    · subst h
      simp [mapGet, List.find?_cons, ← hp]
    · have hne : p.1 ≠ f a := by
        intro he
        obtain ⟨q, hq, hqa⟩ := List.mem_map.mp h
        have hq1 : q.1 = f a := by rw [hrest q hq, hqa]
        exact hnotin (he ▸ hq1 ▸ List.mem_map_of_mem Prod.fst hq)
      simp only [mapGet, List.find?_cons, beq_false_of_ne hne]
      exact ih hrest hndrest h

/-! ## Observable equivalence of the two backends, operation by operation -/

theorem coupled_getUser (m : MemState) (d : DBState) (hc : Coupled m d) (id : Nat) :
    MemStorage.getUser m id = DatabaseStorage.getUser d id := by
  obtain ⟨hue, hug, -, -⟩ := hc
  rw [MemStorage.getUser, DatabaseStorage.getUser, filterHead_eq_find,
    mapGet_eq_find User.id m.users id hug.1, hue]

theorem coupled_verifyResetToken (m : MemState) (d : DBState) (hc : Coupled m d)
    (now : Int) (token : String) :
    MemStorage.verifyResetToken m now token =
      DatabaseStorage.verifyResetToken d now token := by
  obtain ⟨hue, -, -⟩ := hc
  simp only [MemStorage.verifyResetToken, DatabaseStorage.verifyResetToken,
    filterHead_eq_find, hue]

theorem coupled_getContactByMobile (m : MemState) (d : DBState) (hc : Coupled m d)
    (mobile : String) (accountId : Nat) :
    MemStorage.getContactByMobile m mobile accountId =
      DatabaseStorage.getContactByMobile d mobile accountId := by
  obtain ⟨-, -, -, hce, -⟩ := hc
  simp only [MemStorage.getContactByMobile, DatabaseStorage.getContactByMobile,
    filterHead_eq_find, hce]

theorem coupled_createUser (m : MemState) (d : DBState) (hc : Coupled m d)
    (now : Int) (ins : InsertUser) (hins : ins.email ≠ some "") :
    (MemStorage.createUser m now ins).1 = (DatabaseStorage.createUser d now ins).1 ∧
    Coupled (MemStorage.createUser m now ins).2 (DatabaseStorage.createUser d now ins).2 := by
  obtain ⟨hue, hug, huc, hce, hcg, hcc, hpe, hpg, hpc, hae, hag, hac⟩ := hc
  have hmail := orNullStr_eq ins.email hins
  have hany := goodMap_absent User.id m.users m.userCurrentId m.userCurrentId hug (le_refl _)
  constructor
  · simp only [MemStorage.createUser, DatabaseStorage.createUser, hmail, huc]
  · refine ⟨?_, ?_, ?_, hce, hcg, hcc, hpe, hpg, hpc, hae, hag, hac⟩
    · simp only [MemStorage.createUser, DatabaseStorage.createUser]
      rw [mapSet_absent _ _ _ hany, mapValues_append, hue, hmail, huc]
    · simp only [MemStorage.createUser]
      rw [mapSet_absent _ _ _ hany]
      exact goodMap_insert User.id m.users m.userCurrentId hug _ rfl
    · simp only [MemStorage.createUser, DatabaseStorage.createUser, huc]

theorem coupled_createContact (m : MemState) (d : DBState) (hc : Coupled m d)
    (now : Int) (ins : InsertContact) :
    (MemStorage.createContact m now ins).1 = (DatabaseStorage.createContact d now ins).1 ∧
    Coupled (MemStorage.createContact m now ins).2 (DatabaseStorage.createContact d now ins).2 := by
  obtain ⟨hue, hug, huc, hce, hcg, hcc, hpe, hpg, hpc, hae, hag, hac⟩ := hc
  have hany := goodMap_absent Contact.id m.contacts m.contactCurrentId m.contactCurrentId
    hcg (le_refl _)
  constructor
  · simp only [MemStorage.createContact, DatabaseStorage.createContact, hcc]
  · refine ⟨hue, hug, huc, ?_, ?_, ?_, hpe, hpg, hpc, hae, hag, hac⟩
    · simp only [MemStorage.createContact, DatabaseStorage.createContact]
      rw [mapSet_absent _ _ _ hany, mapValues_append, hce, hcc]
    · simp only [MemStorage.createContact]
      rw [mapSet_absent _ _ _ hany]
      exact goodMap_insert Contact.id m.contacts m.contactCurrentId hcg _ rfl
    · simp only [MemStorage.createContact, DatabaseStorage.createContact, hcc]

theorem coupled_createCampaign (m : MemState) (d : DBState) (hc : Coupled m d)
    (now : Int) (ins : InsertCampaign) :
    (MemStorage.createCampaign m now ins).1 = (DatabaseStorage.createCampaign d now ins).1 ∧
    Coupled (MemStorage.createCampaign m now ins).2 (DatabaseStorage.createCampaign d now ins).2 := by
  obtain ⟨hue, hug, huc, hce, hcg, hcc, hpe, hpg, hpc, hae, hag, hac⟩ := hc
  have hany := goodMap_absent Campaign.id m.campaigns m.campaignCurrentId m.campaignCurrentId
    hpg (le_refl _)
  constructor
  · simp only [MemStorage.createCampaign, DatabaseStorage.createCampaign, hpc]
  · refine ⟨hue, hug, huc, hce, hcg, hcc, ?_, ?_, ?_, hae, hag, hac⟩
    · simp only [MemStorage.createCampaign, DatabaseStorage.createCampaign]
      rw [mapSet_absent _ _ _ hany, mapValues_append, hpe, hpc]
    · simp only [MemStorage.createCampaign]
      rw [mapSet_absent _ _ _ hany]
      exact goodMap_insert Campaign.id m.campaigns m.campaignCurrentId hpg _ rfl
    · simp only [MemStorage.createCampaign, DatabaseStorage.createCampaign, hpc]

theorem coupled_updatePassword (m : MemState) (d : DBState) (hc : Coupled m d)
    (userId : Nat) (pw : String) :
    (MemStorage.updatePassword m userId pw).1 =
      (DatabaseStorage.updatePassword d userId pw).1 ∧
    Coupled (MemStorage.updatePassword m userId pw).2
      (DatabaseStorage.updatePassword d userId pw).2 := by
  obtain ⟨hue, hug, huc, hce, hcg, hcc, hpe, hpg, hpc, hae, hag, hac⟩ := hc
  have hgetf : mapGet m.users userId = d.users.find? (fun u => u.id == userId) := by
    rw [mapGet_eq_find User.id m.users userId hug.1, hue]
  cases hfind : d.users.find? (fun u => u.id == userId) with
  | none =>
    have hgetm : mapGet m.users userId = none := by rw [hgetf, hfind]
    have hupd : d.users.map (fun u => if u.id == userId then
        { u with password := pw, resetToken := none, resetTokenExpiry := none }
        else u) = d.users :=
      map_ite_id_of_none _ _ _ hfind
    have hfil : d.users.filter (fun u => u.id == userId) = [] :=
      List.filter_eq_nil_iff.mpr (fun u hu => by
        simpa using List.find?_eq_none.mp hfind u hu)
    constructor
    · simp only [MemStorage.updatePassword, MemStorage.getUser, hgetm,
        DatabaseStorage.updatePassword]
      rw [hupd, hfil]
      rfl
    · simp only [MemStorage.updatePassword, MemStorage.getUser, hgetm,
        DatabaseStorage.updatePassword]
      rw [hupd]
      exact ⟨hue, hug, huc, hce, hcg, hcc, hpe, hpg, hpc, hae, hag, hac⟩
  | some a =>
    have hgetm : mapGet m.users userId = some a := by rw [hgetf, hfind]
    have haid : a.id = userId := by
      have hmem := mapGet_mem m.users userId a hgetm
      have := hug.1 _ hmem
      simpa using this.symm
    have hany : m.users.any (fun p => p.1 == userId) = true := by
      rw [mapAny_eq_isSome_get, hgetm]; rfl
    have hfil : (d.users.map (fun u => if u.id == userId then
        { u with password := pw, resetToken := none, resetTokenExpiry := none }
        else u)).filter (fun u => u.id == userId) =
        (d.users.filter (fun u => u.id == userId)).map
          (fun u => { u with password := pw, resetToken := none, resetTokenExpiry := none }) :=
      filter_map_ite _ _ _ (fun x => rfl)
    have hlen : 0 < (d.users.filter (fun u => u.id == userId)).length := by
      have h1 : (d.users.filter (fun u => u.id == userId)).head? = some a := by
        rw [filterHead_eq_find]; exact hfind
      cases hl : d.users.filter (fun u => u.id == userId) with
      | nil => rw [hl] at h1; simp at h1
      | cons x xs => simp
    constructor
    · simp only [MemStorage.updatePassword, MemStorage.getUser, hgetm,
        DatabaseStorage.updatePassword]
      rw [hfil, List.length_map]
      exact (decide_eq_true hlen).symm
    · have hvals := mapValues_mapSet_update User.id
        (fun u => { u with password := pw, resetToken := none, resetTokenExpiry := none })
        m.users userId a hug.1 hug.2.1 hgetm
      simp only [MemStorage.updatePassword, MemStorage.getUser, hgetm,
        DatabaseStorage.updatePassword]
      refine ⟨?_, ?_, huc, hce, hcg, hcc, hpe, hpg, hpc, hae, hag, hac⟩
      · rw [hvals, hue]
      · exact goodMap_mapSet_update User.id m.users m.userCurrentId userId _
          hug (by simp [haid]) hany

theorem coupled_createResetToken (m : MemState) (d : DBState) (hc : Coupled m d)
    (now : Int) (token : String) (userId : Nat) :
    (match MemStorage.createResetToken m now token userId,
           DatabaseStorage.createResetToken d now token userId with
     | Except.error em, Except.error ed => em = ed
     | Except.ok (tm, m'), Except.ok (td, d') => tm = td ∧ Coupled m' d'
     | _, _ => False) := by
  obtain ⟨hue, hug, huc, hce, hcg, hcc, hpe, hpg, hpc, hae, hag, hac⟩ := hc
  have hgetf : mapGet m.users userId = d.users.find? (fun u => u.id == userId) := by
    rw [mapGet_eq_find User.id m.users userId hug.1, hue]
  cases hfind : d.users.find? (fun u => u.id == userId) with
  | none =>
    have hgetm : mapGet m.users userId = none := by rw [hgetf, hfind]
    simp [MemStorage.createResetToken, MemStorage.getUser, hgetm,
      DatabaseStorage.createResetToken, DatabaseStorage.getUser,
      filterHead_eq_find, hfind]
  | some a =>
    have hgetm : mapGet m.users userId = some a := by rw [hgetf, hfind]
    have haid : a.id = userId := by
      have hmem := mapGet_mem m.users userId a hgetm
      have := hug.1 _ hmem
      simpa using this.symm
    have hany : m.users.any (fun p => p.1 == userId) = true := by
      rw [mapAny_eq_isSome_get, hgetm]; rfl
    have hfil : (d.users.map (fun u => if u.id == userId then
        { u with resetToken := some token, resetTokenExpiry := some (now + msPerHour) }
        else u)).filter (fun u => u.id == userId) =
        (d.users.filter (fun u => u.id == userId)).map
          (fun u => { u with resetToken := some token, resetTokenExpiry := some (now + msPerHour) }) :=
      filter_map_ite _ _ _ (fun x => rfl)
    have hlen : 0 < (d.users.filter (fun u => u.id == userId)).length := by
      have h1 : (d.users.filter (fun u => u.id == userId)).head? = some a := by
        rw [filterHead_eq_find]; exact hfind
      cases hl : d.users.filter (fun u => u.id == userId) with
      | nil => rw [hl] at h1; simp at h1
      | cons x xs => simp
    have hvals := mapValues_mapSet_update User.id
      (fun u => { u with resetToken := some token, resetTokenExpiry := some (now + msPerHour) })
      m.users userId a hug.1 hug.2.1 hgetm
    simp only [MemStorage.createResetToken, MemStorage.getUser, hgetm,
      DatabaseStorage.createResetToken, DatabaseStorage.getUser,
      filterHead_eq_find, hfind]
    rw [hfil]
    have hne : ¬((d.users.filter (fun u => u.id == userId)).map
        (fun u => { u with resetToken := some token, resetTokenExpiry := some (now + msPerHour) })).length = 0 := by
      rw [List.length_map]; omega
    rw [if_neg hne]
    refine ⟨rfl, ?_, ?_, huc, hce, hcg, hcc, hpe, hpg, hpc, hae, hag, hac⟩
    · rw [hvals, hue]
    · exact goodMap_mapSet_update User.id m.users m.userCurrentId userId _
        hug (by simp [haid]) hany

theorem coupled_createOrUpdateAnalytics (m : MemState) (d : DBState) (hc : Coupled m d)
    (now : Int) (ins : InsertAnalytics) :
    (MemStorage.createOrUpdateAnalytics m now ins).1 =
      (DatabaseStorage.createOrUpdateAnalytics d now ins).1 ∧
    Coupled (MemStorage.createOrUpdateAnalytics m now ins).2
      (DatabaseStorage.createOrUpdateAnalytics d now ins).2 := by
  obtain ⟨hue, hug, huc, hce, hcg, hcc, hpe, hpg, hpc, hae, hag, hac⟩ := hc
  cases hfind : d.analytics.find? (fun a => a.campaignId == ins.campaignId) with
  | none =>
    have hgetm : (mapValues m.analyticsData).find?
        (fun a => a.campaignId == ins.campaignId) = none := by rw [hae]; exact hfind
    have hany := goodMap_absent Analytics.id m.analyticsData m.analyticsCurrentId
      m.analyticsCurrentId hag (le_refl _)
    constructor
    · simp only [MemStorage.createOrUpdateAnalytics, hgetm,
        DatabaseStorage.createOrUpdateAnalytics, filterHead_eq_find, hfind, hac]
    · simp only [MemStorage.createOrUpdateAnalytics, hgetm,
        DatabaseStorage.createOrUpdateAnalytics, filterHead_eq_find, hfind]
      refine ⟨hue, hug, huc, hce, hcg, hcc, hpe, hpg, hpc, ?_, ?_, ?_⟩
      · rw [mapSet_absent _ _ _ hany, mapValues_append, hae, hac]
      · rw [mapSet_absent _ _ _ hany]
        exact goodMap_insert Analytics.id m.analyticsData m.analyticsCurrentId hag _ rfl
      · rw [hac]
  | some ex =>
    have hgetm : (mapValues m.analyticsData).find?
        (fun a => a.campaignId == ins.campaignId) = some ex := by rw [hae]; exact hfind
    have hmem : ex ∈ mapValues m.analyticsData := by
      rw [hae]; exact List.mem_of_find?_eq_some hfind
    have hgetk : mapGet m.analyticsData ex.id = some ex :=
      mapGet_of_mem_values Analytics.id m.analyticsData ex hag.1 hag.2.1 hmem
    have hany : m.analyticsData.any (fun p => p.1 == ex.id) = true := by
      rw [mapAny_eq_isSome_get, hgetk]; rfl
    have hvals := mapValues_mapSet_update Analytics.id
      (fun _ => { id := ex.id, campaignId := ins.campaignId, accountId := ins.accountId,
                  updatedAt := now, sent := ins.sent.getD ex.sent,
                  delivered := ins.delivered.getD ex.delivered,
                  read := ins.read.getD ex.read, optout := ins.optout.getD ex.optout,
                  hold := ins.hold.getD ex.hold,
                  failed := ins.failed.getD ex.failed })
      m.analyticsData ex.id ex hag.1 hag.2.1 hgetk
    constructor
    · simp only [MemStorage.createOrUpdateAnalytics, hgetm,
        DatabaseStorage.createOrUpdateAnalytics, filterHead_eq_find, hfind]
    · simp only [MemStorage.createOrUpdateAnalytics, hgetm,
        DatabaseStorage.createOrUpdateAnalytics, filterHead_eq_find, hfind]
      refine ⟨hue, hug, huc, hce, hcg, hcc, hpe, hpg, hpc, ?_, ?_, hac⟩
      · rw [hvals, hae]
      · exact goodMap_mapSet_update Analytics.id m.analyticsData m.analyticsCurrentId
          ex.id _ hag rfl hany

theorem coupled_launchCampaign (m : MemState) (d : DBState) (hc : Coupled m d)
    (now : Int) (id : Nat) :
    (MemStorage.launchCampaign m now id).1 = (DatabaseStorage.launchCampaign d now id).1 ∧
    Coupled (MemStorage.launchCampaign m now id).2
      (DatabaseStorage.launchCampaign d now id).2 := by
  have hcc := hc
  obtain ⟨hue, hug, huc, hce, hcg, hccid, hpe, hpg, hpc, hae, hag, hac⟩ := hc
  have hgetf : mapGet m.campaigns id = d.campaigns.find? (fun c => c.id == id) := by
    rw [mapGet_eq_find Campaign.id m.campaigns id hpg.1, hpe]
  have hhead : ((d.campaigns.map (fun c => if c.id == id then
        { c with status := "active" } else c)).filter (fun c => c.id == id)).head? =
      (d.campaigns.find? (fun c => c.id == id)).map
        (fun c => { c with status := "active" }) := by
    rw [filterHead_eq_find]
    exact find_map_ite (fun x : Campaign => x.id == id)
      (fun x => { x with status := "active" }) d.campaigns (fun x => rfl)
  cases hfind : d.campaigns.find? (fun c => c.id == id) with
  | none =>
    have hgetm : mapGet m.campaigns id = none := by rw [hgetf, hfind]
    have hupd : d.campaigns.map (fun c => if c.id == id then
        { c with status := "active" } else c) = d.campaigns :=
      map_ite_id_of_none _ _ _ hfind
    constructor
    · simp only [MemStorage.launchCampaign, hgetm, DatabaseStorage.launchCampaign]
      rw [hhead, hfind]
      rfl
    · simp only [MemStorage.launchCampaign, hgetm, DatabaseStorage.launchCampaign]
      rw [hhead, hfind]
      simp only [Option.map_none']
      rw [hupd]
      exact ⟨hue, hug, huc, hce, hcg, hccid, hpe, hpg, hpc, hae, hag, hac⟩
  | some c =>
    have hgetm : mapGet m.campaigns id = some c := by rw [hgetf, hfind]
    have hcid : c.id = id := by
      have hmem := mapGet_mem m.campaigns id c hgetm
      have := hpg.1 _ hmem
      simpa using this.symm
    have hany : m.campaigns.any (fun p => p.1 == id) = true := by
      rw [mapAny_eq_isSome_get, hgetm]; rfl
    have hvals := mapValues_mapSet_update Campaign.id
      (fun c => { c with status := "active" }) m.campaigns id c hpg.1 hpg.2.1 hgetm
    have hc1 : Coupled
        { m with campaigns := mapSet m.campaigns id { c with status := "active" } }
        { d with campaigns := d.campaigns.map (fun c => if c.id == id then
            { c with status := "active" } else c) } := by
      refine ⟨hue, hug, huc, hce, hcg, hccid, ?_, ?_, hpc, hae, hag, hac⟩
      · rw [hvals, hpe]
      · exact goodMap_mapSet_update Campaign.id m.campaigns m.campaignCurrentId id _
          hpg (by simp [hcid]) hany
    have hrec := coupled_createOrUpdateAnalytics
      { m with campaigns := mapSet m.campaigns id { c with status := "active" } }
      { d with campaigns := d.campaigns.map (fun c => if c.id == id then
          { c with status := "active" } else c) }
      hc1 now
      { campaignId := id, accountId := c.accountId,
        sent := some 0, delivered := some 0, read := some 0,
        optout := some 0, hold := some 0, failed := some 0 }
    constructor
    · simp only [MemStorage.launchCampaign, hgetm, DatabaseStorage.launchCampaign]
      rw [hhead, hfind]
      simp only [Option.map_some']
    · simp only [MemStorage.launchCampaign, hgetm, DatabaseStorage.launchCampaign]
      rw [hhead, hfind]
      simp only [Option.map_some']
      exact hrec.2

theorem coupled_getAnalytics (m : MemState) (d : DBState) (hc : Coupled m d)
    (accountId : Nat) (campaignId : Option Nat) :
    MemStorage.getAnalytics m accountId campaignId =
      DatabaseStorage.getAnalytics d accountId campaignId := by
  obtain ⟨-, -, -, -, -, -, -, -, -, hae, -, -⟩ := hc
  by_cases h : campaignId.getD 0 ≠ 0
  · simp only [MemStorage.getAnalytics, DatabaseStorage.getAnalytics, if_pos h,
      filter_filter_and, hae]
  · simp only [MemStorage.getAnalytics, DatabaseStorage.getAnalytics, if_neg h, hae]

theorem coupled_importContacts (batch : List InsertContact) :
    ∀ (m : MemState) (d : DBState), Coupled m d → ∀ (now : Int) (dedup : Bool),
    (MemStorage.importContacts m now batch dedup).1 =
      (DatabaseStorage.importContacts d now batch dedup).1 ∧
    Coupled (MemStorage.importContacts m now batch dedup).2
      (DatabaseStorage.importContacts d now batch dedup).2 := by
  induction batch with
  | nil =>
    intro m d hc now dedup
    exact ⟨rfl, hc⟩
  | cons c rest ih =>
    intro m d hc now dedup
    have hmob := coupled_getContactByMobile m d hc c.mobile c.accountId
    by_cases hdup : dedup && (DatabaseStorage.getContactByMobile d c.mobile c.accountId).isSome
    · have hdupm : (dedup && (MemStorage.getContactByMobile m c.mobile c.accountId).isSome) = true := by
        rw [hmob]; exact hdup
      have := ih m d hc now dedup
      constructor
      · simp only [MemStorage.importContacts, DatabaseStorage.importContacts,
          hdupm, hdup, if_true]
        rw [this.1]
      · simp only [MemStorage.importContacts, DatabaseStorage.importContacts,
          hdupm, hdup, if_true]
        exact this.2
    · have hdupm : (dedup && (MemStorage.getContactByMobile m c.mobile c.accountId).isSome) = false := by
        rw [hmob]; exact Bool.eq_false_iff.mpr hdup
      have hcreate := coupled_createContact m d hc now c
      have := ih (MemStorage.createContact m now c).2
        (DatabaseStorage.createContact d now c).2 hcreate.2 now dedup
      have h1 : (dedup && (DatabaseStorage.getContactByMobile d c.mobile c.accountId).isSome) = false :=
        Bool.eq_false_iff.mpr hdup
      constructor
      · simp only [MemStorage.importContacts, DatabaseStorage.importContacts, hdupm, h1,
          Bool.false_eq_true, if_false]
        rw [this.1]
      · simp only [MemStorage.importContacts, DatabaseStorage.importContacts, hdupm, h1,
          Bool.false_eq_true, if_false]
        exact this.2

theorem coupled_getContactsF (m : MemState) (d : DBState) (hc : Coupled m d)
    (now : Int) (accountId : Nat) (f : ContactFilters)
    (hok : contactFiltersOk f = true) :
    MemStorage.getContacts m now accountId (some f) =
      DatabaseStorage.getContacts d now accountId (some f) := by
  obtain ⟨-, -, -, hce, -⟩ := hc
  obtain ⟨hs, hcnt⟩ := Bool.and_eq_true_iff.mp hok
  have hs' : isTruthy f.search = false := by
    cases h : isTruthy f.search
    · rfl
    · rw [h] at hs; exact absurd hs (by decide)
  have hcnt' : (if isTruthy f.label then 1 else 0) + (if isTruthy f.location then 1 else 0) +
      (if isTruthy f.dateRange then (1 : Nat) else 0) ≤ 1 := of_decide_eq_true hcnt
  cases hl : isTruthy f.label <;> cases hloc : isTruthy f.location <;>
      cases hdr : isTruthy f.dateRange <;> rw [hl, hloc, hdr] at hcnt' <;>
      simp only [MemStorage.getContacts, DatabaseStorage.getContacts, hs', hl, hloc, hdr,
        Bool.false_eq_true, if_false, eq_self_iff_true, if_true]
  · rw [hce]
  · rw [filter_filter_and, hce]
  · rw [filter_filter_and, hce]
  · exact absurd hcnt' (by decide)
  · rw [filter_filter_and, hce]
  · exact absurd hcnt' (by decide)
  · exact absurd hcnt' (by decide)
  · exact absurd hcnt' (by decide)

theorem coupled_getCampaignsF (m : MemState) (d : DBState) (hc : Coupled m d)
    (now : Int) (accountId : Nat) (f : CampaignFilters)
    (hok : campaignFiltersOk f = true) :
    MemStorage.getCampaigns m now accountId (some f) =
      DatabaseStorage.getCampaigns d now accountId (some f) := by
  obtain ⟨-, -, -, -, -, -, hpe, -⟩ := hc
  obtain ⟨hs, hcnt⟩ := Bool.and_eq_true_iff.mp hok
  have hs' : isTruthy f.search = false := by
    cases h : isTruthy f.search
    · rfl
    · rw [h] at hs; exact absurd hs (by decide)
  have hcnt' : (if isTruthy f.status then 1 else 0) +
      (if isTruthy f.dateRange then (1 : Nat) else 0) ≤ 1 := of_decide_eq_true hcnt
  cases hst : isTruthy f.status <;> cases hdr : isTruthy f.dateRange <;>
      rw [hst, hdr] at hcnt' <;>
      simp only [MemStorage.getCampaigns, DatabaseStorage.getCampaigns, hs', hst, hdr,
        Bool.false_eq_true, if_false, eq_self_iff_true, if_true]
  · rw [hpe]
  · rw [filter_filter_and, hpe]
  · rw [filter_filter_and, hpe]
  · exact absurd hcnt' (by decide)

theorem coupled_step (m : MemState) (d : DBState) (hc : Coupled m d) (op : Op)
    (hok : opOk op = true) :
    (memStep m op).1 = (dbStep d op).1 ∧ Coupled (memStep m op).2 (dbStep d op).2 := by
  cases op with
  | createUser now ins =>
    have hins : ins.email ≠ some "" := by
      intro h
      rw [opOk] at hok
      rw [h] at hok
      simp at hok
    have h := coupled_createUser m d hc now ins hins
    exact ⟨by simp only [memStep, dbStep]; rw [h.1],
           by simp only [memStep, dbStep]; exact h.2⟩
  | createContact now ins =>
    have h := coupled_createContact m d hc now ins
    exact ⟨by simp only [memStep, dbStep]; rw [h.1],
           by simp only [memStep, dbStep]; exact h.2⟩
  | getContactByMobile mobile accountId =>
    have h := coupled_getContactByMobile m d hc mobile accountId
    exact ⟨by simp only [memStep, dbStep]; rw [h], hc⟩
  | importContacts now batch dedup =>
    have h := coupled_importContacts batch m d hc now dedup
    exact ⟨by simp only [memStep, dbStep]; rw [h.1],
           by simp only [memStep, dbStep]; exact h.2⟩
  | getContacts now accountId filters =>
    cases filters with
    | none =>
      refine ⟨?_, hc⟩
      obtain ⟨-, -, -, hce, -⟩ := hc
      simp only [memStep, dbStep, MemStorage.getContacts, DatabaseStorage.getContacts, hce]
    | some f =>
      have h := coupled_getContactsF m d hc now accountId f hok
      exact ⟨by simp only [memStep, dbStep]; rw [h], hc⟩
  | createCampaign now ins =>
    have h := coupled_createCampaign m d hc now ins
    exact ⟨by simp only [memStep, dbStep]; rw [h.1],
           by simp only [memStep, dbStep]; exact h.2⟩
  | getCampaigns now accountId filters =>
    cases filters with
    | none =>
      refine ⟨?_, hc⟩
      obtain ⟨-, -, -, -, -, -, hpe, -⟩ := hc
      simp only [memStep, dbStep, MemStorage.getCampaigns, DatabaseStorage.getCampaigns, hpe]
    | some f =>
      have h := coupled_getCampaignsF m d hc now accountId f hok
      exact ⟨by simp only [memStep, dbStep]; rw [h], hc⟩
  | launchCampaign now id =>
    have h := coupled_launchCampaign m d hc now id
    exact ⟨by simp only [memStep, dbStep]; rw [h.1],
           by simp only [memStep, dbStep]; exact h.2⟩
  | getAnalytics accountId campaignId =>
    have h := coupled_getAnalytics m d hc accountId campaignId
    exact ⟨by simp only [memStep, dbStep]; rw [h], hc⟩
  | createOrUpdateAnalytics now ins =>
    have h := coupled_createOrUpdateAnalytics m d hc now ins
    exact ⟨by simp only [memStep, dbStep]; rw [h.1],
           by simp only [memStep, dbStep]; exact h.2⟩
  | createResetToken now token userId =>
    have h := coupled_createResetToken m d hc now token userId
    cases hm : MemStorage.createResetToken m now token userId with
    | error em =>
      cases hd : DatabaseStorage.createResetToken d now token userId with
      | error ed =>
        rw [hm, hd] at h
        have h' : em = ed := h
        exact ⟨by simp only [memStep, dbStep, hm, hd, h'], by simp only [memStep, dbStep, hm, hd]; exact hc⟩
      | ok rd =>
        rw [hm, hd] at h
        exact absurd h (by simp)
    | ok rm =>
      cases hd : DatabaseStorage.createResetToken d now token userId with
      | error ed =>
        rw [hm, hd] at h
        obtain ⟨t1, m1⟩ := rm
        exact absurd h (by simp)
      | ok rd =>
        obtain ⟨t1, m1⟩ := rm
        obtain ⟨t2, d1⟩ := rd
        rw [hm, hd] at h
        have h' : t1 = t2 ∧ Coupled m1 d1 := h
        exact ⟨by simp only [memStep, dbStep, hm, hd, h'.1],
               by simp only [memStep, dbStep, hm, hd]; exact h'.2⟩
  | verifyResetToken now token =>
    have h := coupled_verifyResetToken m d hc now token
    exact ⟨by simp only [memStep, dbStep]; rw [h], hc⟩
  | updatePassword userId password =>
    have h := coupled_updatePassword m d hc userId password
    exact ⟨by simp only [memStep, dbStep]; rw [h.1],
           by simp only [memStep, dbStep]; exact h.2⟩

theorem coupled_run (ops : List Op) :
    ∀ (m : MemState) (d : DBState), Coupled m d → ops.all opOk = true →
    (runMem m ops).1 = (runDB d ops).1 ∧
    Coupled (runMem m ops).2 (runDB d ops).2 := by
  induction ops with
  | nil => exact fun m d hc _ => ⟨rfl, hc⟩
  | cons op ops ih =>
    intro m d hc hall
    rw [List.all_cons] at hall
    obtain ⟨hok, hrest⟩ := Bool.and_eq_true_iff.mp hall
    have hstep := coupled_step m d hc op hok
    have hrec := ih (memStep m op).2 (dbStep d op).2 hstep.2 hrest
    constructor
    · simp only [runMem, runDB, hstep.1, hrec.1]
    · simp only [runMem, runDB]
      exact hrec.2

theorem coupled_init : Coupled memInit dbInit := by
  refine ⟨rfl, ⟨?_, ?_, ?_⟩, rfl, rfl, ⟨?_, ?_, ?_⟩, rfl, rfl, ⟨?_, ?_, ?_⟩, rfl, rfl,
    ⟨?_, ?_, ?_⟩, rfl⟩ <;> simp [memInit]

/-! ## C1: backend equivalence -/

/-- C1 (counterexample): the two backends are not observably equivalent on the
spec's operation sequences.  First trace: one `createContact`, then a
`getContacts` whose filters carry both a matching `search` and a
non-matching `label` — the relational backend applies only the search and
returns the contact, the in-memory backend applies both filters and returns
nothing.  Second trace: a contact named `"Alice"` searched as `"alice"` —
the in-memory search is case-insensitive and finds it, the relational
`LIKE` is case-sensitive and does not. -/
theorem c1_backend_equivalence_cex :
    (runMem memInit
        [Op.createContact 0 ⟨1, "alice", "111", some "basic", none⟩,
         Op.getContacts 0 1 (some ⟨some "a", some "vip", none, none⟩)]).1 ≠
      (runDB dbInit
        [Op.createContact 0 ⟨1, "alice", "111", some "basic", none⟩,
         Op.getContacts 0 1 (some ⟨some "a", some "vip", none, none⟩)]).1 ∧
    (runMem memInit
        [Op.createContact 0 ⟨1, "Alice", "111", none, none⟩,
         Op.getContacts 0 1 (some ⟨some "alice", none, none, none⟩)]).1 ≠
      (runDB dbInit
        [Op.createContact 0 ⟨1, "Alice", "111", none, none⟩,
         Op.getContacts 0 1 (some ⟨some "alice", none, none, none⟩)]).1 := by
  constructor <;> decide

/-- C1 (amended): starting from fresh backends and feeding both the same
sequence of storage operations (same wall-clock values and reset tokens),
the relational and in-memory backends return equal results for every
operation — provided each `getContacts`/`getCampaigns` call supplies at most
one truthy filter field and that field is not `search`, and no user is
created with an empty-string email.  Without those provisos the backends
diverge, as the counterexample shows. -/
theorem c1_backend_equivalence (ops : List Op) (h : ops.all opOk = true) :
    (runMem memInit ops).1 = (runDB dbInit ops).1 :=
  (coupled_run ops memInit dbInit coupled_init h).1

/-- C1 witness: a concrete mixed trace — user, contacts with an import and a
duplicate, a campaign launch with analytics, a filtered read, and the full
reset-token round trip — on which both backends agree. -/
theorem c1_backend_equivalence_witness :
    ([Op.createUser 0 ⟨"ada", "pw", some "a@x.io"⟩,
      Op.createContact 1 ⟨1, "bea", "111", some "basic", none⟩,
      Op.importContacts 2 [⟨1, "cal", "222", none, none⟩, ⟨1, "dup", "111", none, none⟩] true,
      Op.createCampaign 3 ⟨1, "launch", "tpl", some "", some "active", none⟩,
      Op.launchCampaign 4 1,
      Op.getAnalytics 1 (some 1),
      Op.getContacts 5 1 (some ⟨none, some "basic", none, none⟩),
      Op.createResetToken 6 "tok" 1,
      Op.verifyResetToken 7 "tok",
      Op.updatePassword 1 "pw2"].all opOk = true) ∧
    (runMem memInit
      [Op.createUser 0 ⟨"ada", "pw", some "a@x.io"⟩,
       Op.createContact 1 ⟨1, "bea", "111", some "basic", none⟩,
       Op.importContacts 2 [⟨1, "cal", "222", none, none⟩, ⟨1, "dup", "111", none, none⟩] true,
       Op.createCampaign 3 ⟨1, "launch", "tpl", some "", some "active", none⟩,
       Op.launchCampaign 4 1,
       Op.getAnalytics 1 (some 1),
       Op.getContacts 5 1 (some ⟨none, some "basic", none, none⟩),
       Op.createResetToken 6 "tok" 1,
       Op.verifyResetToken 7 "tok",
       Op.updatePassword 1 "pw2"]).1 =
    (runDB dbInit
      [Op.createUser 0 ⟨"ada", "pw", some "a@x.io"⟩,
       Op.createContact 1 ⟨1, "bea", "111", some "basic", none⟩,
       Op.importContacts 2 [⟨1, "cal", "222", none, none⟩, ⟨1, "dup", "111", none, none⟩] true,
       Op.createCampaign 3 ⟨1, "launch", "tpl", some "", some "active", none⟩,
       Op.launchCampaign 4 1,
       Op.getAnalytics 1 (some 1),
       Op.getContacts 5 1 (some ⟨none, some "basic", none, none⟩),
       Op.createResetToken 6 "tok" 1,
       Op.verifyResetToken 7 "tok",
       Op.updatePassword 1 "pw2"]).1 :=
  ⟨by decide, c1_backend_equivalence _ (by decide)⟩

/-! ## Frame and effect lemmas for the analytics upsert -/

theorem db_upsert_frame (d : DBState) (now : Int) (ins : InsertAnalytics) :
    (DatabaseStorage.createOrUpdateAnalytics d now ins).2.users = d.users ∧
    (DatabaseStorage.createOrUpdateAnalytics d now ins).2.contacts = d.contacts ∧
    (DatabaseStorage.createOrUpdateAnalytics d now ins).2.campaigns = d.campaigns ∧
    (DatabaseStorage.createOrUpdateAnalytics d now ins).2.nextCampaignId = d.nextCampaignId := by
  cases hfind : (d.analytics.filter (fun a => a.campaignId == ins.campaignId)).head? <;>
    simp [DatabaseStorage.createOrUpdateAnalytics, hfind]

theorem mem_upsert_frame (m : MemState) (now : Int) (ins : InsertAnalytics) :
    (MemStorage.createOrUpdateAnalytics m now ins).2.users = m.users ∧
    (MemStorage.createOrUpdateAnalytics m now ins).2.contacts = m.contacts ∧
    (MemStorage.createOrUpdateAnalytics m now ins).2.campaigns = m.campaigns ∧
    (MemStorage.createOrUpdateAnalytics m now ins).2.campaignCurrentId = m.campaignCurrentId := by
  cases hfind : (mapValues m.analyticsData).find? (fun a => a.campaignId == ins.campaignId) <;>
    simp [MemStorage.createOrUpdateAnalytics, hfind]

theorem filter_key_map_replace {α : Type} (fid fkey : α → Nat) (v ex : α) (l : List α)
    (hidnd : (l.map fid).Nodup) (hkeynd : (l.map fkey).Nodup)
    (hmem : ex ∈ l) (hvkey : fkey v = fkey ex) :
    (l.map (fun a => if fid a == fid ex then v else a)).filter
      (fun a => fkey a == fkey ex) = [v] := by
  induction l with
  | nil => simp at hmem
  | cons a l ih =>
    have hidrest : (l.map fid).Nodup := (List.nodup_cons.mp hidnd).2
    have hidnotin : fid a ∉ l.map fid := (List.nodup_cons.mp hidnd).1
    have hkeyrest : (l.map fkey).Nodup := (List.nodup_cons.mp hkeynd).2
    have hkeynotin : fkey a ∉ l.map fkey := (List.nodup_cons.mp hkeynd).1
    rcases List.mem_cons.mp hmem with he | he
    · subst he
      have h2 : (fkey v == fkey ex) = true := by rw [hvkey]; exact beq_self_eq_true _
      simp only [List.map_cons, List.filter_cons, beq_self_eq_true, if_true,
        eq_self_iff_true, h2]
      have hrest : l.map (fun b => if fid b == fid ex then v else b) = l := by
        calc l.map (fun b => if fid b == fid ex then v else b) = l.map id := by
              apply List.map_congr_left
              intro b hb
              have hne : ¬(fid b = fid ex) := by
                intro h
                exact hidnotin (h ▸ List.mem_map_of_mem fid hb)
              simp [hne]
          _ = l := List.map_id l
      have hfil : l.filter (fun b => fkey b == fkey ex) = [] := by
        apply List.filter_eq_nil_iff.mpr
        intro b hb
        have hne : ¬(fkey b = fkey ex) := by
          intro h
          exact hkeynotin (h ▸ List.mem_map_of_mem fkey hb)
        simp [hne]
      rw [hrest, hfil]
    · have hne_id : ¬(fid a = fid ex) := by
        intro h
        exact hidnotin (h ▸ List.mem_map_of_mem fid he)
      have hne_key : ¬(fkey a = fkey ex) := by
        intro h
        exact hkeynotin (h ▸ List.mem_map_of_mem fkey he)
      simp only [List.map_cons, beq_false_of_ne hne_id, Bool.false_eq_true, if_false,
        List.filter_cons, beq_false_of_ne hne_key]
      exact ih hidrest hkeyrest he

theorem nodup_map_inj {α : Type} (f : α → Nat) (l : List α)
    (hnd : (l.map f).Nodup) :
    ∀ a ∈ l, ∀ b ∈ l, f a = f b → a = b := by
  induction l with
  | nil => intro a ha; simp at ha
  | cons x l ih =>
    have hrest : (l.map f).Nodup := (List.nodup_cons.mp hnd).2
    have hnotin : f x ∉ l.map f := (List.nodup_cons.mp hnd).1
    intro a ha b hb hab
    rcases List.mem_cons.mp ha with h1 | h1 <;> rcases List.mem_cons.mp hb with h2 | h2
    · rw [h1, h2]
    · exfalso
      exact hnotin (h1 ▸ hab ▸ List.mem_map_of_mem f h2)
    · exfalso
      exact hnotin (h2 ▸ hab.symm ▸ List.mem_map_of_mem f h1)
    · exact ih hrest a h1 b h2 hab

theorem db_upsert_filter (d : DBState) (now : Int) (ins : InsertAnalytics)
    (hWF : analyticsWF d.analytics d.nextAnalyticsId) :
    (DatabaseStorage.createOrUpdateAnalytics d now ins).2.analytics.filter
      (fun a => a.campaignId == ins.campaignId) =
      [(DatabaseStorage.createOrUpdateAnalytics d now ins).1] := by
  obtain ⟨hid, hkey, hlt⟩ := hWF
  cases hfind : (d.analytics.filter (fun a => a.campaignId == ins.campaignId)).head? with
  | none =>
    have hfind' : d.analytics.find? (fun a => a.campaignId == ins.campaignId) = none := by
      rw [← filterHead_eq_find]; exact hfind
    have hfil : d.analytics.filter (fun a => a.campaignId == ins.campaignId) = [] := by
      apply List.filter_eq_nil_iff.mpr
      intro b hb
      simpa using List.find?_eq_none.mp hfind' b hb
    simp only [DatabaseStorage.createOrUpdateAnalytics, hfind]
    rw [List.filter_append, hfil]
    simp [List.filter_cons]
  | some ex =>
    have hfindx : d.analytics.find? (fun a => a.campaignId == ins.campaignId) = some ex := by
      rw [← filterHead_eq_find]; exact hfind
    have hmem := List.mem_of_find?_eq_some hfindx
    have hexcid : ex.campaignId = ins.campaignId := by
      have := List.find?_some hfindx
      simpa using this
    simp only [DatabaseStorage.createOrUpdateAnalytics, hfind]
    rw [← hexcid]
    exact filter_key_map_replace Analytics.id Analytics.campaignId _ ex d.analytics
      hid hkey hmem rfl

theorem db_upsert_WF (d : DBState) (now : Int) (ins : InsertAnalytics)
    (hWF : analyticsWF d.analytics d.nextAnalyticsId) :
    analyticsWF (DatabaseStorage.createOrUpdateAnalytics d now ins).2.analytics
      (DatabaseStorage.createOrUpdateAnalytics d now ins).2.nextAnalyticsId := by
  obtain ⟨hid, hkey, hlt⟩ := hWF
  cases hfind : (d.analytics.filter (fun a => a.campaignId == ins.campaignId)).head? with
  | none =>
    have hfind' : d.analytics.find? (fun a => a.campaignId == ins.campaignId) = none := by
      rw [← filterHead_eq_find]; exact hfind
    simp only [DatabaseStorage.createOrUpdateAnalytics, hfind]
    refine ⟨?_, ?_, ?_⟩
    · rw [List.map_append, List.nodup_append]
      refine ⟨hid, List.nodup_singleton _, ?_⟩
      intro x hx hy
      simp only [List.map_cons, List.map_nil, List.mem_singleton] at hy
      subst hy
      obtain ⟨b, hb, hbx⟩ := List.mem_map.mp hx
      have := hlt b hb
      omega
    · rw [List.map_append, List.nodup_append]
      refine ⟨hkey, List.nodup_singleton _, ?_⟩
      intro x hx hy
      simp only [List.map_cons, List.map_nil, List.mem_singleton] at hy
      subst hy
      obtain ⟨b, hb, hbx⟩ := List.mem_map.mp hx
      have hb' := List.find?_eq_none.mp hfind' b hb
      exact hb' (by simp [hbx])
    · intro a ha
      rcases List.mem_append.mp ha with h | h
      · have := hlt a h; omega
      · simp only [List.mem_singleton] at h
        subst h
        show d.nextAnalyticsId < d.nextAnalyticsId + 1
        omega
  | some ex =>
    have hfindx : d.analytics.find? (fun a => a.campaignId == ins.campaignId) = some ex := by
      rw [← filterHead_eq_find]; exact hfind
    have hmem := List.mem_of_find?_eq_some hfindx
    have hexcid : ex.campaignId = ins.campaignId := by
      have := List.find?_some hfindx
      simpa using this
    simp only [DatabaseStorage.createOrUpdateAnalytics, hfind]
    have hids : (d.analytics.map (fun a => if a.id == ex.id then
        { id := ex.id, campaignId := ins.campaignId, accountId := ins.accountId,
          updatedAt := now, sent := ins.sent.getD ex.sent,
          delivered := ins.delivered.getD ex.delivered, read := ins.read.getD ex.read,
          optout := ins.optout.getD ex.optout, hold := ins.hold.getD ex.hold,
          failed := ins.failed.getD ex.failed }
        else a)).map Analytics.id = d.analytics.map Analytics.id := by
      rw [List.map_map]
      apply List.map_congr_left
      intro b hb
      by_cases h : b.id = ex.id
      · simp [Function.comp, h]
      · simp [Function.comp, h]
    have hkeys : (d.analytics.map (fun a => if a.id == ex.id then
        { id := ex.id, campaignId := ins.campaignId, accountId := ins.accountId,
          updatedAt := now, sent := ins.sent.getD ex.sent,
          delivered := ins.delivered.getD ex.delivered, read := ins.read.getD ex.read,
          optout := ins.optout.getD ex.optout, hold := ins.hold.getD ex.hold,
          failed := ins.failed.getD ex.failed }
        else a)).map Analytics.campaignId = d.analytics.map Analytics.campaignId := by
      rw [List.map_map]
      apply List.map_congr_left
      intro b hb
      by_cases h : b.id = ex.id
      · have hbe : b = ex := nodup_map_inj Analytics.id d.analytics hid b hb ex hmem h
        subst hbe
        simp [Function.comp, h, hexcid]
      · simp [Function.comp, h]
    refine ⟨?_, ?_, ?_⟩
    · rw [hids]; exact hid
    · rw [hkeys]; exact hkey
    · intro a ha
      obtain ⟨b, hb, hba⟩ := List.mem_map.mp ha
      by_cases h : b.id = ex.id
      · rw [← hba]
        simp only [h, beq_self_eq_true, if_true, eq_self_iff_true]
        have := hlt ex hmem
        simpa using this
      · rw [← hba]
        simp only [beq_false_of_ne h, Bool.false_eq_true, if_false]
        exact hlt b hb

theorem isTruthy_none : isTruthy none = false := rfl

/-! ## C2: filter priority -/

/-- C2 (counterexample): for the in-memory backend the claim is false — with
a contact `"alice"` labelled `"basic"`, `getContacts(1, {search: "a",
label: "vip"})` returns `[]` (the label filter was applied on top of the
search), while filtering by the search alone returns the contact; so later
filter fields are not ignored by `MemStorage`. -/
theorem c2_filter_priority_cex :
    MemStorage.getContacts
        (MemStorage.createContact memInit 0 ⟨1, "alice", "111", some "basic", none⟩).2 0 1
        (some ⟨some "a", some "vip", none, none⟩) ≠
      MemStorage.getContacts
        (MemStorage.createContact memInit 0 ⟨1, "alice", "111", some "basic", none⟩).2 0 1
        (some ⟨some "a", none, none, none⟩) := by
  decide

/-- C2 (amended): the fixed priority order search, label/status, location,
dateRange with first-truthy-wins holds for the relational backend only:
`DatabaseStorage.getContacts`/`getCampaigns` behave exactly as if only the
first truthy filter field had been supplied.  The in-memory backend instead
composes filters cumulatively: with both `search` and `label` supplied it
returns the search results further narrowed by the label — never ignoring
the label. -/
theorem c2_filter_priority :
    (∀ (d : DBState) (now : Int) (aid : Nat) (f : ContactFilters),
      DatabaseStorage.getContacts d now aid (some f) =
        DatabaseStorage.getContacts d now aid (some (firstFilterOnly f))) ∧
    (∀ (d : DBState) (now : Int) (aid : Nat) (f : CampaignFilters),
      DatabaseStorage.getCampaigns d now aid (some f) =
        DatabaseStorage.getCampaigns d now aid (some (firstCampaignFilterOnly f))) ∧
    (∀ (m : MemState) (now : Int) (aid : Nat) (q lab : String), q ≠ "" → lab ≠ "" →
      MemStorage.getContacts m now aid (some ⟨some q, some lab, none, none⟩) =
        (MemStorage.getContacts m now aid (some ⟨some q, none, none, none⟩)).filter
          (fun c => c.label == some lab)) := by
  refine ⟨?_, ?_, ?_⟩
  · intro d now aid f
    cases hs : isTruthy f.search <;> cases hl : isTruthy f.label <;>
      cases hloc : isTruthy f.location <;> cases hdr : isTruthy f.dateRange <;>
      simp [DatabaseStorage.getContacts, firstFilterOnly, hs, hl, hloc, hdr, isTruthy_none]
  · intro d now aid f
    cases hs : isTruthy f.search <;> cases hst : isTruthy f.status <;>
      cases hdr : isTruthy f.dateRange <;>
      simp [DatabaseStorage.getCampaigns, firstCampaignFilterOnly, hs, hst, hdr, isTruthy_none]
  · intro m now aid q lab hq hlab
    have hq' : isTruthy (some q) = true := by simp [isTruthy, hq]
    have hlab' : isTruthy (some lab) = true := by simp [isTruthy, hlab]
    have hnone : isTruthy none = false := rfl
    simp only [MemStorage.getContacts, hq', hlab', hnone, eq_self_iff_true, if_true,
      Bool.false_eq_true, if_false]

/-- C2 witness: with the stored contact `"alice"`/label `"basic"`, filtering
by `{search: "a", label: "basic"}` in memory equals the search result
narrowed by the label. -/
theorem c2_filter_priority_witness :
    MemStorage.getContacts
        (MemStorage.createContact memInit 0 ⟨1, "alice", "111", some "basic", none⟩).2 0 1
        (some ⟨some "a", some "basic", none, none⟩) =
      (MemStorage.getContacts
        (MemStorage.createContact memInit 0 ⟨1, "alice", "111", some "basic", none⟩).2 0 1
        (some ⟨some "a", none, none, none⟩)).filter (fun c => c.label == some "basic") :=
  c2_filter_priority.2.2 _ 0 1 "a" "basic" (by decide) (by decide)

/-! ## C4: analytics merge semantics -/

theorem db_upsert_result_of_found (s : DBState) (now : Int) (ins : InsertAnalytics)
    (ex : Analytics)
    (hf : (s.analytics.filter (fun a => a.campaignId == ins.campaignId)).head? = some ex) :
    (DatabaseStorage.createOrUpdateAnalytics s now ins).1 =
      { id := ex.id, campaignId := ins.campaignId, accountId := ins.accountId,
        updatedAt := now, sent := ins.sent.getD ex.sent,
        delivered := ins.delivered.getD ex.delivered, read := ins.read.getD ex.read,
        optout := ins.optout.getD ex.optout, hold := ins.hold.getD ex.hold,
        failed := ins.failed.getD ex.failed } := by
  simp [DatabaseStorage.createOrUpdateAnalytics, hf]

theorem db_analytics_merge_aux (cid aid1 aid2 : Nat) (now1 now2 : Int) (d : DBState)
    (hd : analyticsWF d.analytics d.nextAnalyticsId) :
    (DatabaseStorage.createOrUpdateAnalytics
        (DatabaseStorage.createOrUpdateAnalytics d now1
          ⟨cid, aid1, some 5, none, none, none, none, none⟩).2
        now2 ⟨cid, aid2, none, some 3, none, none, none, none⟩).2.analytics.filter
        (fun a => a.campaignId == cid) =
      [(DatabaseStorage.createOrUpdateAnalytics
        (DatabaseStorage.createOrUpdateAnalytics d now1
          ⟨cid, aid1, some 5, none, none, none, none, none⟩).2
        now2 ⟨cid, aid2, none, some 3, none, none, none, none⟩).1] ∧
    (DatabaseStorage.createOrUpdateAnalytics
        (DatabaseStorage.createOrUpdateAnalytics d now1
          ⟨cid, aid1, some 5, none, none, none, none, none⟩).2
        now2 ⟨cid, aid2, none, some 3, none, none, none, none⟩).1.sent = 5 ∧
    (DatabaseStorage.createOrUpdateAnalytics
        (DatabaseStorage.createOrUpdateAnalytics d now1
          ⟨cid, aid1, some 5, none, none, none, none, none⟩).2
        now2 ⟨cid, aid2, none, some 3, none, none, none, none⟩).1.delivered = 3 := by
  have h1 := db_upsert_filter d now1 ⟨cid, aid1, some 5, none, none, none, none, none⟩ hd
  have hWF1 := db_upsert_WF d now1 ⟨cid, aid1, some 5, none, none, none, none, none⟩ hd
  have h2 := db_upsert_filter
    (DatabaseStorage.createOrUpdateAnalytics d now1
      ⟨cid, aid1, some 5, none, none, none, none, none⟩).2
    now2 ⟨cid, aid2, none, some 3, none, none, none, none⟩ hWF1
  have ha1 : (DatabaseStorage.createOrUpdateAnalytics d now1
      ⟨cid, aid1, some 5, none, none, none, none, none⟩).1.sent = 5 := by
    cases hf : (d.analytics.filter (fun a => a.campaignId == cid)).head? <;>
      simp [DatabaseStorage.createOrUpdateAnalytics, hf]
  have hfind2 : ((DatabaseStorage.createOrUpdateAnalytics d now1
      ⟨cid, aid1, some 5, none, none, none, none, none⟩).2.analytics.filter
      (fun a => a.campaignId == cid)).head? =
      some (DatabaseStorage.createOrUpdateAnalytics d now1
        ⟨cid, aid1, some 5, none, none, none, none, none⟩).1 := by
    rw [h1]; rfl
  have hres := db_upsert_result_of_found
    (DatabaseStorage.createOrUpdateAnalytics d now1
      ⟨cid, aid1, some 5, none, none, none, none, none⟩).2
    now2 ⟨cid, aid2, none, some 3, none, none, none, none⟩
    (DatabaseStorage.createOrUpdateAnalytics d now1
      ⟨cid, aid1, some 5, none, none, none, none, none⟩).1 hfind2
  refine ⟨h2, ?_, ?_⟩
  · rw [hres]
    simpa using ha1
  · rw [hres]
    simp

/-- C4 (confirmed): on either backend, calling `createOrUpdateAnalytics`
for a campaign with `{sent: 5}` and then `{delivered: 3}` leaves exactly
one analytics row for that campaignId, and that row has `sent = 5` and
`delivered = 3`: the update merges nullish-absent counters from the
existing row rather than resetting them, and the first call defaults
unsupplied counters to 0.  The well-formedness hypotheses (distinct row
ids, at most one row per campaignId, ids below the id counter) hold in
every reachable state. -/
theorem c4_analytics_merge (cid aid1 aid2 : Nat) (now1 now2 : Int)
    (d : DBState) (hd : analyticsWF d.analytics d.nextAnalyticsId)
    (m : MemState) (hm : MemWF m)
    (hmw : analyticsWF (mapValues m.analyticsData) m.analyticsCurrentId) :
    ((DatabaseStorage.createOrUpdateAnalytics
        (DatabaseStorage.createOrUpdateAnalytics d now1
          ⟨cid, aid1, some 5, none, none, none, none, none⟩).2
        now2 ⟨cid, aid2, none, some 3, none, none, none, none⟩).2.analytics.filter
        (fun a => a.campaignId == cid) =
      [(DatabaseStorage.createOrUpdateAnalytics
        (DatabaseStorage.createOrUpdateAnalytics d now1
          ⟨cid, aid1, some 5, none, none, none, none, none⟩).2
        now2 ⟨cid, aid2, none, some 3, none, none, none, none⟩).1] ∧
     (DatabaseStorage.createOrUpdateAnalytics
        (DatabaseStorage.createOrUpdateAnalytics d now1
          ⟨cid, aid1, some 5, none, none, none, none, none⟩).2
        now2 ⟨cid, aid2, none, some 3, none, none, none, none⟩).1.sent = 5 ∧
     (DatabaseStorage.createOrUpdateAnalytics
        (DatabaseStorage.createOrUpdateAnalytics d now1
          ⟨cid, aid1, some 5, none, none, none, none, none⟩).2
        now2 ⟨cid, aid2, none, some 3, none, none, none, none⟩).1.delivered = 3) ∧
    ((mapValues (MemStorage.createOrUpdateAnalytics
        (MemStorage.createOrUpdateAnalytics m now1
          ⟨cid, aid1, some 5, none, none, none, none, none⟩).2
        now2 ⟨cid, aid2, none, some 3, none, none, none, none⟩).2.analyticsData).filter
        (fun a => a.campaignId == cid) =
      [(MemStorage.createOrUpdateAnalytics
        (MemStorage.createOrUpdateAnalytics m now1
          ⟨cid, aid1, some 5, none, none, none, none, none⟩).2
        now2 ⟨cid, aid2, none, some 3, none, none, none, none⟩).1] ∧
     (MemStorage.createOrUpdateAnalytics
        (MemStorage.createOrUpdateAnalytics m now1
          ⟨cid, aid1, some 5, none, none, none, none, none⟩).2
        now2 ⟨cid, aid2, none, some 3, none, none, none, none⟩).1.sent = 5 ∧
     (MemStorage.createOrUpdateAnalytics
        (MemStorage.createOrUpdateAnalytics m now1
          ⟨cid, aid1, some 5, none, none, none, none, none⟩).2
        now2 ⟨cid, aid2, none, some 3, none, none, none, none⟩).1.delivered = 3) := by
  refine ⟨db_analytics_merge_aux cid aid1 aid2 now1 now2 d hd, ?_⟩
  have e1 := coupled_createOrUpdateAnalytics m (toDB m) hm now1
    ⟨cid, aid1, some 5, none, none, none, none, none⟩
  have e2 := coupled_createOrUpdateAnalytics
    (MemStorage.createOrUpdateAnalytics m now1
      ⟨cid, aid1, some 5, none, none, none, none, none⟩).2
    (DatabaseStorage.createOrUpdateAnalytics (toDB m) now1
      ⟨cid, aid1, some 5, none, none, none, none, none⟩).2
    e1.2 now2 ⟨cid, aid2, none, some 3, none, none, none, none⟩
  obtain ⟨-, -, -, -, -, -, -, -, -, hae2, -, -⟩ := e2.2
  have hdb := db_analytics_merge_aux cid aid1 aid2 now1 now2 (toDB m) hmw
  refine ⟨?_, ?_, ?_⟩
  · rw [hae2, e2.1]
    exact hdb.1
  · rw [e2.1]
    exact hdb.2.1
  · rw [e2.1]
    exact hdb.2.2

/-- C4 witness: both backends, starting empty, end with the single row
`sent = 5, delivered = 3`. -/
theorem c4_analytics_merge_witness :
    analyticsWF dbInit.analytics dbInit.nextAnalyticsId ∧ MemWF memInit ∧
    analyticsWF (mapValues memInit.analyticsData) memInit.analyticsCurrentId ∧
    ((DatabaseStorage.createOrUpdateAnalytics
        (DatabaseStorage.createOrUpdateAnalytics dbInit 0
          ⟨7, 1, some 5, none, none, none, none, none⟩).2
        1 ⟨7, 1, none, some 3, none, none, none, none⟩).1.sent = 5 ∧
     (MemStorage.createOrUpdateAnalytics
        (MemStorage.createOrUpdateAnalytics memInit 0
          ⟨7, 1, some 5, none, none, none, none, none⟩).2
        1 ⟨7, 1, none, some 3, none, none, none, none⟩).1.delivered = 3) :=
  ⟨by decide, by decide, by decide,
   (c4_analytics_merge 7 1 1 0 1 dbInit (by decide) memInit (by decide) (by decide)).1.2.1,
   (c4_analytics_merge 7 1 1 0 1 dbInit (by decide) memInit (by decide) (by decide)).2.2.2⟩

/-! ## Launch effect lemmas -/

theorem mapGet_mapSet_self {α : Type} (m : List (Nat × α)) (k : Nat) (v : α) :
    mapGet (mapSet m k v) k = some v := by
  by_cases h : m.any (fun p => p.1 == k) = true
  · rw [mapSet, if_pos h]
    induction m with
    | nil => simp at h
    | cons p m ih =>
      by_cases hp : p.1 = k
      · simp [mapGet, List.find?_cons, hp]
      · have h2 : m.any (fun p => p.1 == k) = true := by
          simpa [List.any_cons, beq_false_of_ne hp] using h
        simp only [List.map_cons, beq_false_of_ne hp, Bool.false_eq_true, if_false]
        have := ih h2
        simpa [mapGet, List.find?_cons, beq_false_of_ne hp] using this
  · rw [mapSet, if_neg h]
    have hall : ∀ p ∈ m, ¬(p.1 = k) := by
      intro p hp hpk
      exact h (List.any_eq_true.mpr ⟨p, hp, by simp [hpk]⟩)
    induction m with
    | nil => simp [mapGet, List.find?_cons]
    | cons p m ih =>
      have hp := hall p (List.mem_cons_self _ _)
      have hnotm : ¬(m.any fun q => q.1 == k) = true := by
        intro hx
        obtain ⟨q, hq, hqk⟩ := List.any_eq_true.mp hx
        exact hall q (List.mem_cons_of_mem _ hq) (by simpa using hqk)
      simp only [List.cons_append, mapGet, List.find?_cons, beq_false_of_ne hp]
      have := ih hnotm (fun q hq => hall q (List.mem_cons_of_mem _ hq))
      simpa [mapGet] using this

theorem db_upsert_zero (s : DBState) (now : Int) (cid aid : Nat) :
    (DatabaseStorage.createOrUpdateAnalytics s now
      ⟨cid, aid, some 0, some 0, some 0, some 0, some 0, some 0⟩).1.sent = 0 ∧
    (DatabaseStorage.createOrUpdateAnalytics s now
      ⟨cid, aid, some 0, some 0, some 0, some 0, some 0, some 0⟩).1.delivered = 0 ∧
    (DatabaseStorage.createOrUpdateAnalytics s now
      ⟨cid, aid, some 0, some 0, some 0, some 0, some 0, some 0⟩).1.read = 0 ∧
    (DatabaseStorage.createOrUpdateAnalytics s now
      ⟨cid, aid, some 0, some 0, some 0, some 0, some 0, some 0⟩).1.optout = 0 ∧
    (DatabaseStorage.createOrUpdateAnalytics s now
      ⟨cid, aid, some 0, some 0, some 0, some 0, some 0, some 0⟩).1.hold = 0 ∧
    (DatabaseStorage.createOrUpdateAnalytics s now
      ⟨cid, aid, some 0, some 0, some 0, some 0, some 0, some 0⟩).1.failed = 0 := by
  cases hf : (s.analytics.filter (fun a => a.campaignId == cid)).head? <;>
    simp [DatabaseStorage.createOrUpdateAnalytics, hf]

theorem db_launch_found (d : DBState) (now : Int) (id : Nat) (c : Campaign)
    (hfind : d.campaigns.find? (fun x => x.id == id) = some c) :
    (DatabaseStorage.launchCampaign d now id).1 = true ∧
    (DatabaseStorage.launchCampaign d now id).2.campaigns.find? (fun x => x.id == id) =
      some { c with status := "active" } := by
  have hhead : ((d.campaigns.map (fun x => if x.id == id then
      { x with status := "active" } else x)).filter (fun x => x.id == id)).head? =
      some { c with status := "active" } := by
    rw [filterHead_eq_find, find_map_ite (fun x : Campaign => x.id == id)
      (fun x => { x with status := "active" }) d.campaigns (fun x => rfl), hfind]
    rfl
  constructor
  · simp only [DatabaseStorage.launchCampaign, hhead]
  · simp only [DatabaseStorage.launchCampaign, hhead]
    have hframe := db_upsert_frame
      { d with campaigns := d.campaigns.map (fun x => if x.id == id then
          { x with status := "active" } else x) }
      now
      { campaignId := id, accountId := Campaign.accountId { c with status := "active" },
        sent := some 0, delivered := some 0, read := some 0,
        optout := some 0, hold := some 0, failed := some 0 }
    rw [hframe.2.2.1]
    rw [find_map_ite (fun x : Campaign => x.id == id)
      (fun x => { x with status := "active" }) d.campaigns (fun x => rfl), hfind]
    rfl

theorem db_launch_absent (d : DBState) (now : Int) (id : Nat)
    (hfind : d.campaigns.find? (fun x => x.id == id) = none) :
    (DatabaseStorage.launchCampaign d now id).1 = false ∧
    (DatabaseStorage.launchCampaign d now id).2 = d := by
  have hupd := map_ite_id_of_none (fun x : Campaign => x.id == id)
    (fun x => { x with status := "active" }) d.campaigns hfind
  have hh2 : (d.campaigns.filter (fun c => c.id == id)).head? = none := by
    rw [filterHead_eq_find]
    exact hfind
  constructor
  · simp only [DatabaseStorage.launchCampaign, hupd, hh2]
  · simp only [DatabaseStorage.launchCampaign, hupd, hh2]

theorem db_launch_analytics_zero (d : DBState) (now : Int) (id : Nat) (c : Campaign)
    (hfind : d.campaigns.find? (fun x => x.id == id) = some c)
    (hd : analyticsWF d.analytics d.nextAnalyticsId) :
    ((DatabaseStorage.launchCampaign d now id).2.analytics.filter
      (fun a => a.campaignId == id)).map
      (fun a => (a.sent, a.delivered, a.read, a.optout, a.hold, a.failed)) =
      [(0, 0, 0, 0, 0, 0)] := by
  have hhead : ((d.campaigns.map (fun x => if x.id == id then
      { x with status := "active" } else x)).filter (fun x => x.id == id)).head? =
      some { c with status := "active" } := by
    rw [filterHead_eq_find, find_map_ite (fun x : Campaign => x.id == id)
      (fun x => { x with status := "active" }) d.campaigns (fun x => rfl), hfind]
    rfl
  simp only [DatabaseStorage.launchCampaign, hhead]
  have hfil := db_upsert_filter
    { d with campaigns := d.campaigns.map (fun x => if x.id == id then
        { x with status := "active" } else x) }
    now
    { campaignId := id, accountId := Campaign.accountId { c with status := "active" },
      sent := some 0, delivered := some 0, read := some 0,
      optout := some 0, hold := some 0, failed := some 0 }
    hd
  rw [hfil]
  have hz := db_upsert_zero
    { d with campaigns := d.campaigns.map (fun x => if x.id == id then
        { x with status := "active" } else x) }
    now id (Campaign.accountId { c with status := "active" })
  simp only [List.map_cons, List.map_nil, hz.1, hz.2.1, hz.2.2.1, hz.2.2.2.1,
    hz.2.2.2.2.1, hz.2.2.2.2.2]

theorem mem_launch_found (m : MemState) (now : Int) (id : Nat) (c : Campaign)
    (hget : mapGet m.campaigns id = some c) :
    (MemStorage.launchCampaign m now id).1 = true ∧
    mapGet (MemStorage.launchCampaign m now id).2.campaigns id =
      some { c with status := "active" } := by
  constructor
  · simp only [MemStorage.launchCampaign, hget]
  · simp only [MemStorage.launchCampaign, hget]
    have hframe := mem_upsert_frame
      { m with campaigns := mapSet m.campaigns id { c with status := "active" } } now
      { campaignId := id, accountId := c.accountId, sent := some 0, delivered := some 0,
        read := some 0, optout := some 0, hold := some 0, failed := some 0 }
    rw [hframe.2.2.1]
    exact mapGet_mapSet_self m.campaigns id { c with status := "active" }

theorem mem_launch_absent (m : MemState) (now : Int) (id : Nat)
    (hget : mapGet m.campaigns id = none) :
    (MemStorage.launchCampaign m now id).1 = false ∧
    (MemStorage.launchCampaign m now id).2 = m := by
  constructor <;> simp [MemStorage.launchCampaign, hget]

theorem mem_launch_analytics_zero (m : MemState) (now : Int) (id : Nat) (c : Campaign)
    (hm : MemWF m) (hmw : analyticsWF (mapValues m.analyticsData) m.analyticsCurrentId)
    (hget : mapGet m.campaigns id = some c) :
    ((mapValues (MemStorage.launchCampaign m now id).2.analyticsData).filter
      (fun a => a.campaignId == id)).map
      (fun a => (a.sent, a.delivered, a.read, a.optout, a.hold, a.failed)) =
      [(0, 0, 0, 0, 0, 0)] := by
  have hfind : (toDB m).campaigns.find? (fun x => x.id == id) = some c := by
    have hg := hm
    obtain ⟨-, -, -, -, -, -, -, hpg, -⟩ := hg
    show (mapValues m.campaigns).find? (fun x => x.id == id) = some c
    rw [← mapGet_eq_find Campaign.id m.campaigns id hpg.1]
    exact hget
  have e := coupled_launchCampaign m (toDB m) hm now id
  obtain ⟨-, -, -, -, -, -, -, -, -, hae, -⟩ := e.2
  rw [hae]
  exact db_launch_analytics_zero (toDB m) now id c hfind hmw

/-! ## C3: campaign launch and its analytics row -/

/-- C3 (counterexample): an analytics row with `sent = 5` exists before the
launch; after `launchCampaign` the (still unique) row has `sent = 0` — the
explicit zero counters passed by `launchCampaign` overwrite the existing
values (`0 ?? x` is `0`), so the counters are not left unchanged as the
claim states. -/
theorem c3_launch_cex :
    (mapValues (MemStorage.createOrUpdateAnalytics
        (MemStorage.createCampaign memInit 0 ⟨1, "camp", "tpl", none, none, none⟩).2
        1 ⟨1, 1, some 5, none, none, none, none, none⟩).2.analyticsData).map
      (fun a => (a.campaignId, a.sent)) = [(1, 5)] ∧
    (MemStorage.launchCampaign
        (MemStorage.createOrUpdateAnalytics
          (MemStorage.createCampaign memInit 0 ⟨1, "camp", "tpl", none, none, none⟩).2
          1 ⟨1, 1, some 5, none, none, none, none, none⟩).2
        2 1).1 = true ∧
    (mapValues (MemStorage.launchCampaign
        (MemStorage.createOrUpdateAnalytics
          (MemStorage.createCampaign memInit 0 ⟨1, "camp", "tpl", none, none, none⟩).2
          1 ⟨1, 1, some 5, none, none, none, none, none⟩).2
        2 1).2.analyticsData).map
      (fun a => (a.campaignId, a.sent)) = [(1, 0)] := by
  refine ⟨by decide, by decide, by decide⟩

/-- C3 (amended): on both backends, `launchCampaign(id)` on a stored
campaign returns `true`, sets the campaign's status to `"active"`, and
leaves exactly one analytics row for that campaignId with all six counters
equal to 0 — freshly zero when no row existed, and overwritten to zero when
one existed (the explicit zeros win over the nullish-coalescing merge);
`launchCampaign` returns `false` and leaves the state unchanged when no
campaign with that id exists.  The well-formedness hypotheses hold in every
reachable state. -/
theorem c3_launch_analytics (d : DBState) (m : MemState) (now : Int) (id : Nat)
    (hd : analyticsWF d.analytics d.nextAnalyticsId)
    (hm : MemWF m) (hmw : analyticsWF (mapValues m.analyticsData) m.analyticsCurrentId) :
    (∀ c : Campaign, d.campaigns.find? (fun x => x.id == id) = some c →
      (DatabaseStorage.launchCampaign d now id).1 = true ∧
      (DatabaseStorage.launchCampaign d now id).2.campaigns.find? (fun x => x.id == id) =
        some { c with status := "active" } ∧
      ((DatabaseStorage.launchCampaign d now id).2.analytics.filter
        (fun a => a.campaignId == id)).map
        (fun a => (a.sent, a.delivered, a.read, a.optout, a.hold, a.failed)) =
        [(0, 0, 0, 0, 0, 0)]) ∧
    (d.campaigns.find? (fun x => x.id == id) = none →
      (DatabaseStorage.launchCampaign d now id).1 = false ∧
      (DatabaseStorage.launchCampaign d now id).2 = d) ∧
    (∀ c : Campaign, mapGet m.campaigns id = some c →
      (MemStorage.launchCampaign m now id).1 = true ∧
      mapGet (MemStorage.launchCampaign m now id).2.campaigns id =
        some { c with status := "active" } ∧
      ((mapValues (MemStorage.launchCampaign m now id).2.analyticsData).filter
        (fun a => a.campaignId == id)).map
        (fun a => (a.sent, a.delivered, a.read, a.optout, a.hold, a.failed)) =
        [(0, 0, 0, 0, 0, 0)]) ∧
    (mapGet m.campaigns id = none →
      (MemStorage.launchCampaign m now id).1 = false ∧
      (MemStorage.launchCampaign m now id).2 = m) := by
  refine ⟨?_, ?_, ?_, ?_⟩
  · intro c hfind
    exact ⟨(db_launch_found d now id c hfind).1, (db_launch_found d now id c hfind).2,
      db_launch_analytics_zero d now id c hfind hd⟩
  · intro hfind
    exact db_launch_absent d now id hfind
  · intro c hget
    exact ⟨(mem_launch_found m now id c hget).1, (mem_launch_found m now id c hget).2,
      mem_launch_analytics_zero m now id c hm hmw hget⟩
  · intro hget
    exact mem_launch_absent m now id hget

/-- C3 witness: a pre-existing analytics row with `sent = 5` for campaign 1;
after launch the unique row is all zeros, on both backends. -/
theorem c3_launch_analytics_witness :
    analyticsWF (⟨[], [], [⟨1, 1, "camp", "tpl", none, "draft", none, 0⟩],
        [⟨1, 1, 1, 5, 0, 0, 0, 0, 0, 0⟩], 1, 1, 2, 2⟩ : DBState).analytics 2 ∧
    MemWF (⟨[], [], [(1, ⟨1, 1, "camp", "tpl", none, "draft", none, 0⟩)],
        [(1, ⟨1, 1, 1, 5, 0, 0, 0, 0, 0, 0⟩)], 1, 1, 2, 2⟩ : MemState) ∧
    ((DatabaseStorage.launchCampaign (⟨[], [], [⟨1, 1, "camp", "tpl", none, "draft", none, 0⟩],
        [⟨1, 1, 1, 5, 0, 0, 0, 0, 0, 0⟩], 1, 1, 2, 2⟩ : DBState) 3 1).2.analytics.filter
        (fun a => a.campaignId == 1)).map
        (fun a => (a.sent, a.delivered, a.read, a.optout, a.hold, a.failed)) =
      [(0, 0, 0, 0, 0, 0)] :=
  ⟨by decide, by decide,
   ((c3_launch_analytics (⟨[], [], [⟨1, 1, "camp", "tpl", none, "draft", none, 0⟩],
        [⟨1, 1, 1, 5, 0, 0, 0, 0, 0, 0⟩], 1, 1, 2, 2⟩ : DBState)
      (⟨[], [], [(1, ⟨1, 1, "camp", "tpl", none, "draft", none, 0⟩)],
        [(1, ⟨1, 1, 1, 5, 0, 0, 0, 0, 0, 0⟩)], 1, 1, 2, 2⟩ : MemState) 3 1
      (by decide) (by decide) (by decide)).1
      ⟨1, 1, "camp", "tpl", none, "draft", none, 0⟩ (by decide)).2.2⟩

/-! ## C10: launch ignores the current status -/

/-- C10 (confirmed): `launchCampaign` never inspects the campaign's current
status: for every stored campaign, whatever its status (draft, active, or
anything else), the call returns `true` and stores the campaign with status
`"active"` — being in draft is not a precondition, on either backend. -/
theorem c10_launch_ignores_status (d : DBState) (m : MemState) (now : Int) (id : Nat) :
    (∀ c : Campaign, d.campaigns.find? (fun x => x.id == id) = some c →
      (DatabaseStorage.launchCampaign d now id).1 = true ∧
      (DatabaseStorage.launchCampaign d now id).2.campaigns.find? (fun x => x.id == id) =
        some { c with status := "active" }) ∧
    (∀ c : Campaign, mapGet m.campaigns id = some c →
      (MemStorage.launchCampaign m now id).1 = true ∧
      mapGet (MemStorage.launchCampaign m now id).2.campaigns id =
        some { c with status := "active" }) :=
  ⟨fun c h => db_launch_found d now id c h, fun c h => mem_launch_found m now id c h⟩

/-- C10 witness: a campaign stored with the status `"completed"` — not a
draft — still launches successfully and becomes `"active"` on both
backends. -/
theorem c10_launch_ignores_status_witness :
    ((DatabaseStorage.launchCampaign (⟨[], [], [⟨1, 1, "n", "t", none, "completed", none, 0⟩],
        [], 1, 1, 2, 1⟩ : DBState) 0 1).1 = true ∧
      (DatabaseStorage.launchCampaign (⟨[], [], [⟨1, 1, "n", "t", none, "completed", none, 0⟩],
        [], 1, 1, 2, 1⟩ : DBState) 0 1).2.campaigns.find? (fun x => x.id == 1) =
        some ⟨1, 1, "n", "t", none, "active", none, 0⟩) ∧
    ((MemStorage.launchCampaign (⟨[], [], [(1, ⟨1, 1, "n", "t", none, "completed", none, 0⟩)],
        [], 1, 1, 2, 1⟩ : MemState) 0 1).1 = true ∧
      mapGet (MemStorage.launchCampaign (⟨[], [], [(1, ⟨1, 1, "n", "t", none, "completed", none, 0⟩)],
        [], 1, 1, 2, 1⟩ : MemState) 0 1).2.campaigns 1 =
        some ⟨1, 1, "n", "t", none, "active", none, 0⟩) :=
  ⟨(c10_launch_ignores_status (⟨[], [], [⟨1, 1, "n", "t", none, "completed", none, 0⟩],
      [], 1, 1, 2, 1⟩ : DBState) (⟨[], [], [(1, ⟨1, 1, "n", "t", none, "completed", none, 0⟩)],
      [], 1, 1, 2, 1⟩ : MemState) 0 1).1 ⟨1, 1, "n", "t", none, "completed", none, 0⟩ (by decide),
   (c10_launch_ignores_status (⟨[], [], [⟨1, 1, "n", "t", none, "completed", none, 0⟩],
      [], 1, 1, 2, 1⟩ : DBState) (⟨[], [], [(1, ⟨1, 1, "n", "t", none, "completed", none, 0⟩)],
      [], 1, 1, 2, 1⟩ : MemState) 0 1).2 ⟨1, 1, "n", "t", none, "completed", none, 0⟩ (by decide)⟩

/-! ## C7: createCampaign forces draft -/

/-- C7 (confirmed): every created campaign has status `"draft"` regardless
of any caller-supplied status (the quantification over `ins` covers every
possible `status` payload), and an absent or empty-string `contactLabel` is
stored as absent (`none`), on both backends. -/
theorem c7_create_campaign_draft (d : DBState) (m : MemState) (now : Int)
    (ins : InsertCampaign) :
    (DatabaseStorage.createCampaign d now ins).1.status = "draft" ∧
    (MemStorage.createCampaign m now ins).1.status = "draft" ∧
    ((ins.contactLabel = none ∨ ins.contactLabel = some "") →
      (DatabaseStorage.createCampaign d now ins).1.contactLabel = none ∧
      (MemStorage.createCampaign m now ins).1.contactLabel = none) := by
  refine ⟨rfl, rfl, ?_⟩
  intro h
  rcases h with h | h <;>
    exact ⟨by simp [DatabaseStorage.createCampaign, orNullStr, h],
           by simp [MemStorage.createCampaign, orNullStr, h]⟩

/-- C7 witness: a caller-supplied status `"active"` and empty-string
contactLabel end up as `"draft"` and absent. -/
theorem c7_create_campaign_draft_witness :
    (DatabaseStorage.createCampaign dbInit 0
      ⟨1, "n", "t", some "", some "active", none⟩).1.status = "draft" ∧
    (DatabaseStorage.createCampaign dbInit 0
      ⟨1, "n", "t", some "", some "active", none⟩).1.contactLabel = none ∧
    (MemStorage.createCampaign memInit 0
      ⟨1, "n", "t", some "", some "active", none⟩).1.contactLabel = none :=
  ⟨(c7_create_campaign_draft dbInit memInit 0 ⟨1, "n", "t", some "", some "active", none⟩).1,
   ((c7_create_campaign_draft dbInit memInit 0
      ⟨1, "n", "t", some "", some "active", none⟩).2.2 (Or.inr rfl)).1,
   ((c7_create_campaign_draft dbInit memInit 0
      ⟨1, "n", "t", some "", some "active", none⟩).2.2 (Or.inr rfl)).2⟩

/-! ## C8: asymmetric failure signalling -/

/-- C8 (confirmed): when the target does not exist, `createResetToken`
throws (`'User not found'`, modelled as `Except.error`), while
`updatePassword` and `launchCampaign` return plain `false` without
throwing and leave the state unchanged — on both backends. -/
theorem c8_error_asymmetry (d : DBState) (m : MemState) (now : Int)
    (token pw : String) (userId cid : Nat) :
    (DatabaseStorage.getUser d userId = none →
      DatabaseStorage.createResetToken d now token userId =
        Except.error "User not found") ∧
    (MemStorage.getUser m userId = none →
      MemStorage.createResetToken m now token userId =
        Except.error "User not found") ∧
    (DatabaseStorage.getUser d userId = none →
      (DatabaseStorage.updatePassword d userId pw).1 = false ∧
      (DatabaseStorage.updatePassword d userId pw).2 = d) ∧
    (MemStorage.getUser m userId = none →
      (MemStorage.updatePassword m userId pw).1 = false ∧
      (MemStorage.updatePassword m userId pw).2 = m) ∧
    (d.campaigns.find? (fun x => x.id == cid) = none →
      (DatabaseStorage.launchCampaign d now cid).1 = false) ∧
    (mapGet m.campaigns cid = none →
      (MemStorage.launchCampaign m now cid).1 = false) := by
  refine ⟨?_, ?_, ?_, ?_, ?_, ?_⟩
  · intro h
    simp [DatabaseStorage.createResetToken, h]
  · intro h
    simp [MemStorage.createResetToken, h]
  · intro h
    simp only [DatabaseStorage.getUser] at h
    have hfind : d.users.find? (fun u => u.id == userId) = none := by
      rw [← filterHead_eq_find]; exact h
    have hupd := map_ite_id_of_none (fun u : User => u.id == userId)
      (fun u => { u with password := pw, resetToken := none, resetTokenExpiry := none })
      d.users hfind
    have hfil : d.users.filter (fun u => u.id == userId) = [] :=
      List.filter_eq_nil_iff.mpr (fun u hu => by
        simpa using List.find?_eq_none.mp hfind u hu)
    constructor
    · simp only [DatabaseStorage.updatePassword]
      rw [hupd, hfil]
      rfl
    · simp only [DatabaseStorage.updatePassword]
      rw [hupd]
  · intro h
    simp only [MemStorage.getUser] at h
    constructor <;> simp [MemStorage.updatePassword, MemStorage.getUser, h]
  · intro h
    exact (db_launch_absent d now cid h).1
  · intro h
    exact (mem_launch_absent m now cid h).1

/-- C8 witness: on empty backends, user 1 and campaign 1 do not exist —
the token creation throws and the two updates return `false`. -/
theorem c8_error_asymmetry_witness :
    DatabaseStorage.createResetToken dbInit 0 "tok" 1 = Except.error "User not found" ∧
    MemStorage.createResetToken memInit 0 "tok" 1 = Except.error "User not found" ∧
    (DatabaseStorage.updatePassword dbInit 1 "pw").1 = false ∧
    (MemStorage.updatePassword memInit 1 "pw").1 = false ∧
    (DatabaseStorage.launchCampaign dbInit 0 1).1 = false ∧
    (MemStorage.launchCampaign memInit 0 1).1 = false :=
  ⟨(c8_error_asymmetry dbInit memInit 0 "tok" "pw" 1 1).1 (by decide),
   (c8_error_asymmetry dbInit memInit 0 "tok" "pw" 1 1).2.1 (by decide),
   ((c8_error_asymmetry dbInit memInit 0 "tok" "pw" 1 1).2.2.1 (by decide)).1,
   ((c8_error_asymmetry dbInit memInit 0 "tok" "pw" 1 1).2.2.2.1 (by decide)).1,
   (c8_error_asymmetry dbInit memInit 0 "tok" "pw" 1 1).2.2.2.2.1 (by decide),
   (c8_error_asymmetry dbInit memInit 0 "tok" "pw" 1 1).2.2.2.2.2 (by decide)⟩

/-! ## C6: updatePassword clears the reset token -/

theorem db_updatePassword_clears (d : DBState) (userId : Nat) (pw : String)
    (now2 : Int) (t : String)
    (hOnly : ∀ v ∈ d.users, v.resetToken = some t → v.id = userId) :
    DatabaseStorage.verifyResetToken
      (DatabaseStorage.updatePassword d userId pw).2 now2 t = none := by
  have hfil2 : ((d.users.map (fun u => if u.id == userId then
      { u with password := pw, resetToken := none, resetTokenExpiry := none }
      else u)).filter (fun x => x.resetToken == some t)) = [] := by
    apply List.filter_eq_nil_iff.mpr
    intro x hx
    obtain ⟨v, hv, rfl⟩ := List.mem_map.mp hx
    by_cases hvid : v.id = userId
    · simp [hvid]
    · simp only [beq_false_of_ne hvid, Bool.false_eq_true, if_false]
      intro hbeq
      have hvt : v.resetToken = some t := by simpa using hbeq
      exact hvid (hOnly v hv hvt)
  simp only [DatabaseStorage.verifyResetToken, DatabaseStorage.updatePassword, hfil2,
    List.head?_nil]

/-- C6 (confirmed): a successful `updatePassword(userId, new)` stores, in
one update, the user with the new password and with `resetToken` and
`resetTokenExpiry` both absent; consequently a token that identified that
user (and no other) before the call no longer verifies afterwards.  When no
user with `userId` exists, it returns `false` and changes nothing.  Both
backends. -/
theorem c6_update_password (d : DBState) (m : MemState) (userId : Nat) (pw : String)
    (now2 : Int) (t : String) (hm : MemWF m) :
    (∀ u : User, d.users.find? (fun x => x.id == userId) = some u →
      (DatabaseStorage.updatePassword d userId pw).1 = true ∧
      (DatabaseStorage.updatePassword d userId pw).2.users.find? (fun x => x.id == userId) =
        some { u with password := pw, resetToken := none, resetTokenExpiry := none }) ∧
    ((∀ v ∈ d.users, v.resetToken = some t → v.id = userId) →
      DatabaseStorage.verifyResetToken
        (DatabaseStorage.updatePassword d userId pw).2 now2 t = none) ∧
    (d.users.find? (fun x => x.id == userId) = none →
      (DatabaseStorage.updatePassword d userId pw).1 = false ∧
      (DatabaseStorage.updatePassword d userId pw).2 = d) ∧
    (∀ u : User, mapGet m.users userId = some u →
      (MemStorage.updatePassword m userId pw).1 = true ∧
      mapGet (MemStorage.updatePassword m userId pw).2.users userId =
        some { u with password := pw, resetToken := none, resetTokenExpiry := none }) ∧
    ((∀ v ∈ mapValues m.users, v.resetToken = some t → v.id = userId) →
      MemStorage.verifyResetToken
        (MemStorage.updatePassword m userId pw).2 now2 t = none) ∧
    (mapGet m.users userId = none →
      (MemStorage.updatePassword m userId pw).1 = false ∧
      (MemStorage.updatePassword m userId pw).2 = m) := by
  refine ⟨?_, ?_, ?_, ?_, ?_, ?_⟩
  · intro u hfind
    have hlen : 0 < (d.users.filter (fun x => x.id == userId)).length := by
      have h1 : (d.users.filter (fun x => x.id == userId)).head? = some u := by
        rw [filterHead_eq_find]; exact hfind
      cases hl : d.users.filter (fun x => x.id == userId) with
      | nil => rw [hl] at h1; simp at h1
      | cons x xs => simp
    constructor
    · simp only [DatabaseStorage.updatePassword]
      rw [filter_map_ite (fun x : User => x.id == userId)
        (fun u => { u with password := pw, resetToken := none, resetTokenExpiry := none })
        d.users (fun x => rfl), List.length_map]
      exact decide_eq_true hlen
    · simp only [DatabaseStorage.updatePassword]
      rw [find_map_ite (fun x : User => x.id == userId)
        (fun u => { u with password := pw, resetToken := none, resetTokenExpiry := none })
        d.users (fun x => rfl), hfind]
      rfl
  · exact db_updatePassword_clears d userId pw now2 t
  · intro hfind
    have hupd := map_ite_id_of_none (fun u : User => u.id == userId)
      (fun u => { u with password := pw, resetToken := none, resetTokenExpiry := none })
      d.users hfind
    have hfil : d.users.filter (fun x => x.id == userId) = [] :=
      List.filter_eq_nil_iff.mpr (fun u hu => by
        simpa using List.find?_eq_none.mp hfind u hu)
    constructor
    · simp only [DatabaseStorage.updatePassword]
      rw [hupd, hfil]
      rfl
    · simp only [DatabaseStorage.updatePassword]
      rw [hupd]
  · intro u hget
    constructor
    · simp only [MemStorage.updatePassword, MemStorage.getUser, hget]
    · simp only [MemStorage.updatePassword, MemStorage.getUser, hget]
      exact mapGet_mapSet_self m.users userId
        { u with password := pw, resetToken := none, resetTokenExpiry := none }
  · intro hOnly
    have e := coupled_updatePassword m (toDB m) hm userId pw
    have hv := coupled_verifyResetToken
      (MemStorage.updatePassword m userId pw).2
      (DatabaseStorage.updatePassword (toDB m) userId pw).2 e.2 now2 t
    rw [hv]
    exact db_updatePassword_clears (toDB m) userId pw now2 t hOnly
  · intro hget
    constructor <;> simp [MemStorage.updatePassword, MemStorage.getUser, hget]

/-- C6 witness: a stored user holding token `"tok"`; the token verifies
before the update and no longer verifies after, on both backends. -/
theorem c6_update_password_witness :
    MemWF (⟨[(1, ⟨1, "ada", none, "old", some "tok", some 100, 0⟩)],
      [], [], [], 2, 1, 1, 1⟩ : MemState) ∧
    DatabaseStorage.verifyResetToken
      (⟨[⟨1, "ada", none, "old", some "tok", some 100, 0⟩], [], [], [], 2, 1, 1, 1⟩ : DBState)
      50 "tok" = some ⟨1, "ada", none, "old", some "tok", some 100, 0⟩ ∧
    DatabaseStorage.verifyResetToken
      (DatabaseStorage.updatePassword
        (⟨[⟨1, "ada", none, "old", some "tok", some 100, 0⟩], [], [], [], 2, 1, 1, 1⟩ : DBState)
        1 "new").2 50 "tok" = none ∧
    MemStorage.verifyResetToken
      (MemStorage.updatePassword
        (⟨[(1, ⟨1, "ada", none, "old", some "tok", some 100, 0⟩)],
          [], [], [], 2, 1, 1, 1⟩ : MemState)
        1 "new").2 50 "tok" = none :=
  ⟨by decide, by decide,
   (c6_update_password
      (⟨[⟨1, "ada", none, "old", some "tok", some 100, 0⟩], [], [], [], 2, 1, 1, 1⟩ : DBState)
      (⟨[(1, ⟨1, "ada", none, "old", some "tok", some 100, 0⟩)],
        [], [], [], 2, 1, 1, 1⟩ : MemState)
      1 "new" 50 "tok" (by decide)).2.1 (by decide),
   (c6_update_password
      (⟨[⟨1, "ada", none, "old", some "tok", some 100, 0⟩], [], [], [], 2, 1, 1, 1⟩ : DBState)
      (⟨[(1, ⟨1, "ada", none, "old", some "tok", some 100, 0⟩)],
        [], [], [], 2, 1, 1, 1⟩ : MemState)
      1 "new" 50 "tok" (by decide)).2.2.2.2.1 (by decide)⟩

/-! ## C5: import deduplication -/

theorem db_import_counts (now : Int) (batch : List InsertContact) :
    ∀ (d : DBState) (dedup : Bool),
    (DatabaseStorage.importContacts d now batch dedup).1.1 +
      (DatabaseStorage.importContacts d now batch dedup).1.2 = batch.length ∧
    (DatabaseStorage.importContacts d now batch dedup).2.contacts.length =
      d.contacts.length + (DatabaseStorage.importContacts d now batch dedup).1.1 := by
  induction batch with
  | nil =>
    intro d dedup
    exact ⟨rfl, rfl⟩
  | cons c rest ih =>
    intro d dedup
    by_cases hdup : (dedup && (DatabaseStorage.getContactByMobile d c.mobile c.accountId).isSome) = true
    · have hrec := ih d dedup
      constructor
      · simp only [DatabaseStorage.importContacts, hdup, eq_self_iff_true, if_true,
          List.length_cons]
        omega
      · simp only [DatabaseStorage.importContacts, hdup, eq_self_iff_true, if_true]
        exact hrec.2
    · have hfalse : (dedup && (DatabaseStorage.getContactByMobile d c.mobile c.accountId).isSome) = false :=
        Bool.eq_false_iff.mpr hdup
      have hrec := ih (DatabaseStorage.createContact d now c).2 dedup
      have hlen1 : (DatabaseStorage.createContact d now c).2.contacts.length =
          d.contacts.length + 1 := by
        simp [DatabaseStorage.createContact]
      constructor
      · simp only [DatabaseStorage.importContacts, hfalse, Bool.false_eq_true, if_false,
          List.length_cons]
        omega
      · simp only [DatabaseStorage.importContacts, hfalse, Bool.false_eq_true, if_false]
        rw [hrec.2, hlen1]
        omega

theorem db_import_check_stable (d : DBState) (now : Int) (c b : InsertContact)
    (hne : c.mobile ≠ b.mobile ∨ c.accountId ≠ b.accountId) :
    (DatabaseStorage.getContactByMobile (DatabaseStorage.createContact d now c).2
      b.mobile b.accountId).isSome =
    (DatabaseStorage.getContactByMobile d b.mobile b.accountId).isSome := by
  simp only [DatabaseStorage.getContactByMobile, DatabaseStorage.createContact]
  rw [List.filter_append]
  have hsingle : ([(⟨d.nextContactId, c.accountId, c.name, c.mobile, orNullStr c.label,
      orNullStr c.location, now⟩ : Contact)].filter
      (fun x => x.mobile == b.mobile && x.accountId == b.accountId)) = [] := by
    rcases hne with h | h <;> simp [List.filter_cons, beq_false_of_ne h]
  rw [hsingle, List.append_nil]

theorem db_import_dedup_aux (now : Int) (batch : List InsertContact) :
    ∀ (d : DBState),
    batch.Pairwise (fun a b => a.mobile ≠ b.mobile ∨ a.accountId ≠ b.accountId) →
    (DatabaseStorage.importContacts d now batch true).1.2 =
      batch.countP
        (fun c => (DatabaseStorage.getContactByMobile d c.mobile c.accountId).isSome) ∧
    (DatabaseStorage.importContacts d now batch true).1.1 =
      batch.length - batch.countP
        (fun c => (DatabaseStorage.getContactByMobile d c.mobile c.accountId).isSome) := by
  induction batch with
  | nil =>
    intro d _
    exact ⟨rfl, rfl⟩
  | cons c rest ih =>
    intro d hp
    obtain ⟨hhead, hrest⟩ := List.pairwise_cons.mp hp
    by_cases hc : (DatabaseStorage.getContactByMobile d c.mobile c.accountId).isSome = true
    · have hcond : (true && (DatabaseStorage.getContactByMobile d c.mobile c.accountId).isSome) = true := by
        simp [hc]
      have hrec := ih d hrest
      have hK := List.countP_cons_of_pos
        (fun x => (DatabaseStorage.getContactByMobile d x.mobile x.accountId).isSome) rest hc
      have hle := List.countP_le_length
        (fun x => (DatabaseStorage.getContactByMobile d x.mobile x.accountId).isSome)
        (l := rest)
      constructor
      · simp only [DatabaseStorage.importContacts, hcond, eq_self_iff_true, if_true]
        rw [hK]
        omega
      · simp only [DatabaseStorage.importContacts, hcond, eq_self_iff_true, if_true,
          List.length_cons]
        rw [hK]
        omega
    · have hc' : (DatabaseStorage.getContactByMobile d c.mobile c.accountId).isSome = false :=
        Bool.eq_false_iff.mpr hc
      have hcond : (true && (DatabaseStorage.getContactByMobile d c.mobile c.accountId).isSome) = false := by
        simp [hc']
      have hcong : ∀ b ∈ rest,
          (DatabaseStorage.getContactByMobile (DatabaseStorage.createContact d now c).2
            b.mobile b.accountId).isSome =
          (DatabaseStorage.getContactByMobile d b.mobile b.accountId).isSome :=
        fun b hb => db_import_check_stable d now c b (hhead b hb)
      have hKc : rest.countP (fun x => (DatabaseStorage.getContactByMobile
            (DatabaseStorage.createContact d now c).2 x.mobile x.accountId).isSome) =
          rest.countP
            (fun x => (DatabaseStorage.getContactByMobile d x.mobile x.accountId).isSome) :=
        List.countP_congr (fun b hb => by rw [hcong b hb])
      have hrec := ih (DatabaseStorage.createContact d now c).2 hrest
      have hK0 := List.countP_cons_of_neg
        (fun x => (DatabaseStorage.getContactByMobile d x.mobile x.accountId).isSome) rest hc
      have hle := List.countP_le_length
        (fun x => (DatabaseStorage.getContactByMobile d x.mobile x.accountId).isSome)
        (l := rest)
      constructor
      · simp only [DatabaseStorage.importContacts, hcond, Bool.false_eq_true, if_false]
        rw [hK0, hrec.1, hKc]
      · simp only [DatabaseStorage.importContacts, hcond, Bool.false_eq_true, if_false,
          List.length_cons]
        rw [hK0, hrec.2, hKc]
        omega

/-- C5 (counterexample): a batch of two identical records against an empty
store.  No record's `(mobile, accountId)` is present "at the time of the
call" (K = 0), so the claim predicts `{imported: 2, duplicates: 0}` — but
both backends import the first record and then count the second as a
duplicate of it, returning `{imported: 1, duplicates: 1}`. -/
theorem c5_import_dedup_cex :
    ([⟨1, "alice", "111", none, none⟩,
      ⟨1, "alice", "111", none, none⟩] : List InsertContact).countP
      (fun c => (DatabaseStorage.getContactByMobile dbInit c.mobile c.accountId).isSome) = 0 ∧
    (DatabaseStorage.importContacts dbInit 0
      [⟨1, "alice", "111", none, none⟩, ⟨1, "alice", "111", none, none⟩] true).1 = (1, 1) ∧
    (MemStorage.importContacts memInit 0
      [⟨1, "alice", "111", none, none⟩, ⟨1, "alice", "111", none, none⟩] true).1 = (1, 1) := by
  refine ⟨by decide, by decide, by decide⟩

/-- C5 (amended): for a batch whose records have pairwise-distinct
`(mobile, accountId)` pairs, `importContacts` with deduplication returns
`{imported: N-K, duplicates: K}` where K counts the records whose pair was
already stored at the time of the call, and the stored collection grows by
exactly N-K — on both backends.  In general (intra-batch repeats allowed)
each record's duplicate check re-queries the state current at its own step,
records are processed in list order, imported + duplicates = N, and the
store grows by exactly the imported count. -/
theorem c5_import_dedup (d : DBState) (m : MemState) (now : Int)
    (batch batch2 : List InsertContact) (dedup2 : Bool) (hm : MemWF m)
    (hdist : batch.Pairwise (fun a b => a.mobile ≠ b.mobile ∨ a.accountId ≠ b.accountId)) :
    (DatabaseStorage.importContacts d now batch true).1.2 =
      batch.countP
        (fun c => (DatabaseStorage.getContactByMobile d c.mobile c.accountId).isSome) ∧
    (DatabaseStorage.importContacts d now batch true).1.1 =
      batch.length - batch.countP
        (fun c => (DatabaseStorage.getContactByMobile d c.mobile c.accountId).isSome) ∧
    (DatabaseStorage.importContacts d now batch true).2.contacts.length =
      d.contacts.length + (DatabaseStorage.importContacts d now batch true).1.1 ∧
    (MemStorage.importContacts m now batch true).1.2 =
      batch.countP
        (fun c => (MemStorage.getContactByMobile m c.mobile c.accountId).isSome) ∧
    (MemStorage.importContacts m now batch true).1.1 =
      batch.length - batch.countP
        (fun c => (MemStorage.getContactByMobile m c.mobile c.accountId).isSome) ∧
    (mapValues (MemStorage.importContacts m now batch true).2.contacts).length =
      (mapValues m.contacts).length + (MemStorage.importContacts m now batch true).1.1 ∧
    (DatabaseStorage.importContacts d now batch2 dedup2).1.1 +
      (DatabaseStorage.importContacts d now batch2 dedup2).1.2 = batch2.length ∧
    (DatabaseStorage.importContacts d now batch2 dedup2).2.contacts.length =
      d.contacts.length + (DatabaseStorage.importContacts d now batch2 dedup2).1.1 := by
  have hdb := db_import_dedup_aux now batch d hdist
  have hdbc := db_import_counts now batch d true
  have hgen := db_import_counts now batch2 d dedup2
  have e := coupled_importContacts batch m (toDB m) hm now true
  have hdb2 := db_import_dedup_aux now batch (toDB m) hdist
  have hdbc2 := db_import_counts now batch (toDB m) true
  have hKm : batch.countP
      (fun c => (MemStorage.getContactByMobile m c.mobile c.accountId).isSome) =
      batch.countP (fun c =>
        (DatabaseStorage.getContactByMobile (toDB m) c.mobile c.accountId).isSome) :=
    List.countP_congr (fun b _ => by
      rw [coupled_getContactByMobile m (toDB m) hm b.mobile b.accountId])
  obtain ⟨-, -, -, hce2, -⟩ := e.2
  refine ⟨hdb.1, hdb.2, hdbc.2, ?_, ?_, ?_, hgen.1, hgen.2⟩
  · rw [hKm]
    have := congrArg Prod.snd e.1
    simp only at this
    rw [this]
    exact hdb2.1
  · rw [hKm]
    have := congrArg Prod.fst e.1
    simp only at this
    rw [this]
    exact hdb2.2
  · rw [hce2]
    have := congrArg Prod.fst e.1
    simp only at this
    rw [this]
    exact hdbc2.2

/-- C5 witness: one record already stored (mobile `"111"`), a two-record
distinct batch — one duplicate, one import. -/
theorem c5_import_dedup_witness :
    ([⟨1, "a", "111", none, none⟩,
      ⟨1, "b", "222", none, none⟩] : List InsertContact).Pairwise
      (fun a b => a.mobile ≠ b.mobile ∨ a.accountId ≠ b.accountId) ∧
    (DatabaseStorage.importContacts
      (⟨[], [⟨1, 1, "x", "111", none, none, 0⟩], [], [], 1, 2, 1, 1⟩ : DBState) 1
      [⟨1, "a", "111", none, none⟩, ⟨1, "b", "222", none, none⟩] true).1.2 =
      ([⟨1, "a", "111", none, none⟩,
        ⟨1, "b", "222", none, none⟩] : List InsertContact).countP
        (fun c => (DatabaseStorage.getContactByMobile
          (⟨[], [⟨1, 1, "x", "111", none, none, 0⟩], [], [], 1, 2, 1, 1⟩ : DBState)
          c.mobile c.accountId).isSome) :=
  ⟨by decide,
   (c5_import_dedup
     (⟨[], [⟨1, 1, "x", "111", none, none, 0⟩], [], [], 1, 2, 1, 1⟩ : DBState)
     (⟨[], [(1, ⟨1, 1, "x", "111", none, none, 0⟩)], [], [], 1, 2, 1, 1⟩ : MemState)
     1 [⟨1, "a", "111", none, none⟩, ⟨1, "b", "222", none, none⟩] [] true
     (by decide) (by decide)).1⟩

/-! ## C9: dateRange semantics -/

/-- C9 (counterexample): a contact created at time 5, queried at time 10
with the unrecognized dateRange `"bogus"`.  The claim says the call returns
the full account scope as if the filter were absent — but both backends
return `[]`, because the unmatched `switch` leaves `startDate = now` and
the `createdAt >= startDate` bound then excludes everything created before
the call. -/
theorem c9_date_range_cex :
    DatabaseStorage.getContacts
        (⟨[], [⟨1, 1, "a", "111", none, none, 5⟩], [], [], 1, 2, 1, 1⟩ : DBState)
        10 1 (some ⟨none, none, none, some "bogus"⟩) = [] ∧
    DatabaseStorage.getContacts
        (⟨[], [⟨1, 1, "a", "111", none, none, 5⟩], [], [], 1, 2, 1, 1⟩ : DBState)
        10 1 none = [⟨1, 1, "a", "111", none, none, 5⟩] ∧
    MemStorage.getContacts
        (⟨[], [(1, ⟨1, 1, "a", "111", none, none, 5⟩)], [], [], 1, 2, 1, 1⟩ : MemState)
        10 1 (some ⟨none, none, none, some "bogus"⟩) = [] := by
  refine ⟨by decide, by decide, by decide⟩

/-- C9 (amended): a dateRange filter keeps exactly the records with
`createdAt ≥ startDate`, where `startDate` is midnight of the current day
for `'today'`, now − 7 days for `'last-week'`, now − 1 month for
`'last-month'`, now − 1 year for `'last-year'` — and for every unrecognized
value `startDate` stays at `now`, so the call returns only records created
at or after the moment of the call, not the full account scope. -/
theorem c9_date_range (d : DBState) (m : MemState) (now : Int) (aid : Nat)
    (r : String) (hr : r ≠ "") :
    (DatabaseStorage.getContacts d now aid (some ⟨none, none, none, some r⟩) =
      d.contacts.filter (fun c => c.accountId == aid &&
        decide (dateRangeStart now r ≤ c.createdAt))) ∧
    (DatabaseStorage.getCampaigns d now aid (some ⟨none, none, some r⟩) =
      d.campaigns.filter (fun c => c.accountId == aid &&
        decide (dateRangeStart now r ≤ c.createdAt))) ∧
    (MemStorage.getContacts m now aid (some ⟨none, none, none, some r⟩) =
      ((mapValues m.contacts).filter (fun c => c.accountId == aid)).filter
        (fun c => decide (dateRangeStart now r ≤ c.createdAt))) ∧
    dateRangeStart now "today" = startOfDay now ∧
    dateRangeStart now "last-week" = now - 7 * msPerDay ∧
    dateRangeStart now "last-month" = setMonthMinus1 now ∧
    dateRangeStart now "last-year" = setFullYearMinus1 now ∧
    (r ∉ (["today", "last-week", "last-month", "last-year"] : List String) →
      dateRangeStart now r = now) := by
  have htr : isTruthy (some r) = true := by simp [isTruthy, hr]
  refine ⟨?_, ?_, ?_, rfl, rfl, rfl, rfl, ?_⟩
  · simp only [DatabaseStorage.getContacts, isTruthy_none, htr, Bool.false_eq_true,
      if_false, eq_self_iff_true, if_true, Option.getD_some]
  · simp only [DatabaseStorage.getCampaigns, isTruthy_none, htr, Bool.false_eq_true,
      if_false, eq_self_iff_true, if_true, Option.getD_some]
  · simp only [MemStorage.getContacts, isTruthy_none, htr, Bool.false_eq_true,
      if_false, eq_self_iff_true, if_true, Option.getD_some]
  · intro h
    have h1 : ¬(r = "today") := fun he => h (by rw [he]; simp)
    have h2 : ¬(r = "last-week") := fun he => h (by rw [he]; simp)
    have h3 : ¬(r = "last-month") := fun he => h (by rw [he]; simp)
    have h4 : ¬(r = "last-year") := fun he => h (by rw [he]; simp)
    simp [dateRangeStart, h1, h2, h3, h4]

/-- C9 witness: at `now = 10` the unrecognized value `"bogus"` leaves the
lower bound at `now`, and the `getContacts` call applies exactly that
bound. -/
theorem c9_date_range_witness :
    ("bogus" : String) ≠ "" ∧
    (DatabaseStorage.getContacts
        (⟨[], [⟨1, 1, "a", "111", none, none, 5⟩], [], [], 1, 2, 1, 1⟩ : DBState)
        10 1 (some ⟨none, none, none, some "bogus"⟩) =
      (⟨[], [⟨1, 1, "a", "111", none, none, 5⟩], [], [], 1, 2, 1, 1⟩ : DBState).contacts.filter
        (fun c => c.accountId == 1 && decide (dateRangeStart 10 "bogus" ≤ c.createdAt))) ∧
    dateRangeStart 10 "bogus" = 10 :=
  ⟨by decide,
   (c9_date_range
     (⟨[], [⟨1, 1, "a", "111", none, none, 5⟩], [], [], 1, 2, 1, 1⟩ : DBState)
     memInit 10 1 "bogus" (by decide)).1,
   (c9_date_range
     (⟨[], [⟨1, 1, "a", "111", none, none, 5⟩], [], [], 1, 2, 1, 1⟩ : DBState)
     memInit 10 1 "bogus" (by decide)).2.2.2.2.2.2.2 (by decide)⟩
